/-
  Verification of the flask-rebar OpenAPI v3 generator
  (`flask_rebar/swagger_generation/swagger_generator_v3.py`)
  against its natural-language specification.

  The generator and its data model are shallowly embedded below.  Python
  dicts are modelled as insertion-ordered association lists; schemas,
  fields and authenticators are opaque records exposing exactly the
  interface the generator reads; fatal configuration errors are modelled
  with `Except`.  Helper functions of the repository whose source is not
  available (they live in `generator_utils.py`, `swagger_generator_base.py`,
  `marshmallow_to_swagger.py` and `swagger_objects.py`) are modelled from
  the specification and marked as such in their doc comments.
-/
import Mathlib

namespace FlaskRebar

/-- JSON-like values: the shape of the generated swagger document.
Objects are insertion-ordered association lists, mirroring Python dicts. -/
inductive JValue where
  | jnull : JValue
  | jbool : Bool → JValue
  | jnum : Int → JValue
  | jstr : String → JValue
  | jarr : List JValue → JValue
  | jobj : List (String × JValue) → JValue

/-- Whether a value is JSON null (the model of Python `None`): the
generator tests popped hints with `is not None`. -/
def JValue.isNull : JValue → Bool
  | .jnull => true
  | _ => false

/-- Lookup in an association list (first binding wins), mirroring
Python `d[k]` / `k in d` on dicts, which hold at most one binding per key. -/
def lookupA {α : Type} (d : List (String × α)) (k : String) : Option α :=
  match d with
  | [] => none
  | (k1, v) :: rest => if k1 = k then some v else lookupA rest k

/-- Insert-or-replace in an association list: mirrors Python `d[k] = v`,
which keeps the key's original position when it is already present and
appends otherwise. -/
def insertAssoc {α : Type} (d : List (String × α)) (k : String) (v : α) :
    List (String × α) :=
  match d with
  | [] => [(k, v)]
  | (k1, v1) :: rest =>
      if k1 = k then (k, v) :: rest else (k1, v1) :: insertAssoc rest k v

/-- Remove the (unique, in dict usage) binding of `k`: mirrors the removal
half of Python `d.pop(k, None)`. -/
def eraseKey {α : Type} (d : List (String × α)) (k : String) :
    List (String × α) :=
  match d with
  | [] => []
  | (k1, v1) :: rest => if k1 = k then rest else (k1, v1) :: eraseKey rest k

/-- Python `d.pop(k, None)`: the popped value (if any) and the remaining dict. -/
def popKey {α : Type} (d : List (String × α)) (k : String) :
    Option α × List (String × α) :=
  match lookupA d k with
  | none => (none, d)
  | some v => (some v, eraseKey d k)

/-- The keys of an association list, in order. -/
def keysOf {α : Type} (d : List (String × α)) : List String := d.map Prod.fst

/-- Python `d.update(e)` on dicts: insert every binding of `e` into `d`. -/
def updateAssoc {α : Type} (d e : List (String × α)) : List (String × α) :=
  e.foldl (fun acc kv => insertAssoc acc kv.1 kv.2) d

/-- Big-endian decimal digits of a natural number (the digits of Python
`str(n)` for a nonnegative int). -/
def digitsOf (n : Nat) : List Nat :=
  if h : n < 10 then [n] else digitsOf (n / 10) ++ [n % 10]
decreasing_by
  exact Nat.div_lt_self (by omega) (by omega)

/-- The character of a single decimal digit. -/
def digitChar10 (d : Nat) : Char := Char.ofNat (48 + d)

/-- Python `str(n)` for a nonnegative int: its decimal representation. -/
def natToStr (n : Nat) : String :=
  String.mk ((digitsOf n).map digitChar10)

theorem digitsOf_ne_nil (n : Nat) : digitsOf n ≠ [] := by
  unfold digitsOf
  split
  · simp
  · simp

theorem digitsOf_lt (n : Nat) : ∀ d ∈ digitsOf n, d < 10 := by
  induction n using Nat.strong_induction_on with
  | _ n ih =>
    unfold digitsOf
    split
    · intro d hd
      simp at hd
      omega
    · intro d hd
      rw [List.mem_append] at hd
      rcases hd with hd | hd
      · exact ih (n / 10) (Nat.div_lt_self (by omega) (by omega)) d hd
      · simp at hd
        omega

/-- Reassembling a number from its big-endian decimal digits. -/
def undigits (l : List Nat) : Nat :=
  l.foldl (fun a d => 10 * a + d) 0

theorem undigits_append_singleton (l : List Nat) (d : Nat) :
    undigits (l ++ [d]) = 10 * undigits l + d := by
  simp [undigits, List.foldl_append]

theorem undigits_digitsOf (n : Nat) : undigits (digitsOf n) = n := by
  induction n using Nat.strong_induction_on with
  | _ n ih =>
    unfold digitsOf
    split
    · simp [undigits]
    · rw [undigits_append_singleton,
        ih (n / 10) (Nat.div_lt_self (by omega) (by omega))]
      omega

theorem digitsOf_inj {m n : Nat} (h : digitsOf m = digitsOf n) : m = n := by
  have hm := undigits_digitsOf m
  have hn := undigits_digitsOf n
  rw [h] at hm
  omega

theorem digitChar10_inj {a b : Nat} (ha : a < 10) (hb : b < 10)
    (h : digitChar10 a = digitChar10 b) : a = b := by
  interval_cases a <;> interval_cases b <;> simp_all [digitChar10]

theorem map_digitChar10_inj : ∀ (l1 l2 : List Nat), (∀ x ∈ l1, x < 10) →
    (∀ x ∈ l2, x < 10) → l1.map digitChar10 = l2.map digitChar10 → l1 = l2 := by
  intro l1
  induction l1 with
  | nil =>
    intro l2 _ _ h
    cases l2 with
    | nil => rfl
    | cons b bs => simp at h
  | cons a as ih =>
    intro l2 h1 h2 h
    cases l2 with
    | nil => simp at h
    | cons b bs =>
      simp only [List.map_cons, List.cons.injEq] at h
      have hab : a = b := by
        apply digitChar10_inj (h1 a (by simp)) (h2 b (by simp)) h.1
      have : as = bs := by
        apply ih bs (fun x hx => h1 x (by simp [hx]))
          (fun x hx => h2 x (by simp [hx])) h.2
      simp [hab, this]

theorem natToStr_inj {m n : Nat} (h : natToStr m = natToStr n) : m = n := by
  unfold natToStr at h
  have hdata : (digitsOf m).map digitChar10 = (digitsOf n).map digitChar10 := by
    have := congrArg String.data h
    simpa using this
  exact digitsOf_inj
    (map_digitChar10_inj _ _ (digitsOf_lt m) (digitsOf_lt n) hdata)

theorem natToStr_ne_default (n : Nat) : natToStr n ≠ "default" := by
  intro h
  have hdata : (digitsOf n).map digitChar10 = "default".data := by
    have := congrArg String.data h
    simpa [natToStr] using this
  rcases hl : digitsOf n with _ | ⟨d, rest⟩
  · exact digitsOf_ne_nil n hl
  · rw [hl] at hdata
    have hd10 : d < 10 := digitsOf_lt n d (by rw [hl]; simp)
    have hhead : digitChar10 d = 'd' := by
      have : digitChar10 d :: rest.map digitChar10 = "default".data := by
        simpa using hdata
      have := congrArg List.head? this
      simpa using this
    interval_cases d <;> simp_all [digitChar10]

/-- Modelled from the spec: the swagger vocabulary constants of the module
`swagger_words` (referenced as `sw` by the generator source, the module itself
is not in `src/`); each constant is the corresponding OpenAPI key. -/
def sw.name : String := "name"

def sw.required : String := "required"

def sw.in_ : String := "in"

def sw.path : String := "path"

def sw.style : String := "style"

def sw.simple : String := "simple"

def sw.schema : String := "schema"

def sw.type_ : String := "type"

def sw.parameters : String := "parameters"

def sw.default : String := "default"

def sw.description : String := "description"

def sw.responses : String := "responses"

def sw.operation_id : String := "operationId"

def sw.security : String := "security"

def sw.tags : String := "tags"

def sw.summary : String := "summary"

def sw.request_body : String := "requestBody"

def sw.content : String := "content"

def sw.explode : String := "explode"

def sw.query : String := "query"

def sw.header : String := "header"

def sw.openapi : String := "openapi"

def sw.info : String := "info"

def sw.paths : String := "paths"

def sw.components : String := "components"

def sw.schemas : String := "schemas"

def sw.security_schemes : String := "securitySchemes"

def sw.servers : String := "servers"

def sw.title : String := "title"

def sw.version : String := "version"

/-- A marshmallow field as the generator reads it: only its required flag
is consulted directly (`bool(field.required)`); everything else is the
field converter's business. -/
structure MField where
  required : Bool
deriving DecidableEq, Repr

/-- A marshmallow schema as the generator reads it: a swagger title (used
for component names and `$ref`s), a documentation string (used for response
descriptions) and the ordered list of top-level fields with their external
names. Schemas are opaque inputs; the generator never mutates them. -/
structure MSchema where
  title : String
  doc : String
  fields : List (String × MField)
deriving DecidableEq, Repr

/-- An authenticator as the generator reads it, via the authenticator
converter registry: identity (authenticators are deduplicated by identity),
its security schemes and its security requirements. -/
structure Authenticator where
  id : Nat
  securitySchemes : List (String × JValue)
  securityRequirements : List JValue

/-- An entry of `PathDefinition.authenticators`: either the `USE_DEFAULT`
sentinel or a concrete authenticator. -/
inductive AuthEntry where
  | useDefault : AuthEntry
  | auth : Authenticator → AuthEntry

/-- Whether an `AuthEntry` is a concrete authenticator
(Python: `authenticator is not USE_DEFAULT`). -/
def AuthEntry.isConcrete : AuthEntry → Bool
  | .useDefault => false
  | .auth _ => true

/-- The `headers_schema` slot of a path definition: the `USE_DEFAULT`
sentinel, or an explicit value that is either a schema or `None`. -/
inductive HeadersSetting where
  | useDefault : HeadersSetting
  | explicit : Option MSchema → HeadersSetting

/-- A `PathDefinition`: the per-(path, method) record of the registry.
`func_doc` models `d.func.__doc__` and `func_title` models
`get_swagger_title(d.func)`; `endpoint` is the endpoint name (`None` or a
string, where the empty string is falsy like in Python). -/
structure PathDefinition where
  func_doc : Option String
  func_title : String
  endpoint : Option String
  response_body_schema : List (Nat × Option MSchema)
  query_string_schema : Option MSchema
  headers_schema : HeadersSetting
  request_body_schema : Option MSchema
  authenticators : List AuthEntry
  hidden : Bool
  tags : List String
  summary : Option String

/-- Modelled from the spec: one segment of a framework (Flask) path
template — a literal segment or a typed placeholder `<tag:name>` (§4.3:
"Framework path syntax embeds a parameter name and an optional
converter/type tag per placeholder"). The parsing function
`format_path_for_swagger` lives in `generator_utils.py`, not in `src/`,
so the template is modelled structurally. -/
inductive PathSegment where
  | lit : String → PathSegment
  | param : String → String → PathSegment
deriving DecidableEq, Repr

/-- A framework path template. -/
abbrev RawPath := List PathSegment

/-- A path parameter extracted from a path template: name plus converter
type tag (spec §3, "PathArg"). -/
structure PathArg where
  name : String
  type : String
deriving DecidableEq, Repr

/-- The handler registry as the generator reads it (spec §3): paths
(ordered mapping path-template → ordered mapping method → definition),
the default headers schema and the default authenticators. -/
structure HandlerRegistry where
  paths : List (RawPath × List (String × PathDefinition))
  default_headers_schema : Option MSchema
  default_authenticators : List Authenticator

/-- A specification tag object (`swagger_objects.py` is not in `src/`).
Modelled from the spec: tags carry additional metadata and are emitted
via `as_swagger`. -/
structure Tag where
  name : String
  description : String

/-- Modelled from the spec: `Tag.as_swagger`. -/
def Tag.as_swagger (t : Tag) : JValue :=
  .jobj [(sw.name, .jstr t.name), (sw.description, .jstr t.description)]

/-- A Server object (`swagger_objects.py` is not in `src/`). Modelled from
the spec: a server is identified by its URL. -/
structure Server where
  url : String

/-- Modelled from the spec: `Server.as_swagger`. -/
def Server.as_swagger (s : Server) : JValue :=
  .jobj [("url", .jstr s.url)]

/-- The fatal configuration errors of generation (spec §7): parameter
type conflict, schema naming collision, unrecognized path converter tag. -/
inductive GenError where
  | parameterMismatch : String → GenError
  | namingCollision : String → GenError
  | unknownConverter : String → GenError
deriving DecidableEq, Repr

/-- The `SwaggerV3Generator`'s configuration surface. The per-role field
converters and the schema converter are external collaborators
(`marshmallow_to_swagger.py` internals are out of scope per spec §1);
they are carried as opaque functions. -/
structure Generator where
  version : String := "1.0.0"
  title : String := "My API"
  description : String := ""
  query_string_converter : MField → List (String × JValue)
  headers_converter : MField → List (String × JValue)
  schema_converter : MSchema → JValue
  tags : List Tag := []
  servers : List Server := []
  default_response_schema : MSchema
  include_hidden : Bool := false

/-- The generator's `_ref_base`, set in `__init__`. -/
def refBase : String := "#/components/schemas"

/-- The generator's `_open_api_version` class attribute. -/
def openApiVersion : String := "3.1.0"

def sw.string : String := "string"

def sw.integer : String := "integer"

def sw.number : String := "number"

/-- Modelled from the spec: the fixed converter-tag lookup table
`flask_converters_to_swagger_types` of `swagger_generator_base.py` (not in
`src/`); spec §3/§4.3: a fixed small set of tags (string, integer, float,
path, uuid, ...), each mapped to exactly one spec-level primitive type. -/
def flaskConvertersToSwaggerTypes : List (String × String) :=
  [("uuid", sw.string), ("string", sw.string), ("path", sw.string),
   ("int", sw.integer), ("float", sw.number), ("default", sw.string)]

/-- Modelled from the spec: `format_path_for_swagger` of
`generator_utils.py` (not in `src/`); spec §4.3: each placeholder
`<tag:name>` becomes `{name}` in the spec path and yields a `PathArg`
carrying its name and converter tag. -/
def formatPathForSwagger (p : RawPath) : String × List PathArg :=
  ("/" ++ String.intercalate "/" (p.map (fun seg =>
      match seg with
      | .lit s => s
      | .param n _ => "\x7b" ++ n ++ "\x7d")),
   p.filterMap (fun seg =>
      match seg with
      | .lit _ => none
      | .param n t => some ⟨n, t⟩))

/-- Modelled from the spec: `get_swagger_title` of
`marshmallow_to_swagger.py` (not in `src/`) applied to a schema — the
schema's stable swagger name (spec §4.2). -/
def getSwaggerTitle (s : MSchema) : String := s.title

/-- Modelled from the spec: `get_ref_schema` of `generator_utils.py` (not
in `src/`) — a reference into the components section instead of an inlined
definition (spec glossary, "Reference"). -/
def getRefSchema (base : String) (s : MSchema) : JValue :=
  .jobj [("$ref", .jstr (base ++ "/" ++ getSwaggerTitle s))]

/-- Modelled from the spec: `get_response_description` of
`generator_utils.py` (not in `src/`) — the schema's documentation string
(spec §6: schemas expose "a documentation string if present"). -/
def getResponseDescription (s : MSchema) : String := s.doc

/-- The name of an emitted parameter object. -/
def paramName : JValue → Option String
  | .jobj kvs =>
      match lookupA kvs sw.name with
      | some (.jstr s) => some s
      | _ => none
  | _ => none

/-- The declared primitive type of an emitted parameter object
(`parameter["schema"]["type"]`). -/
def paramTypeName : JValue → Option String
  | .jobj kvs =>
      match lookupA kvs sw.schema with
      | some (.jobj s) =>
          match lookupA s sw.type_ with
          | some (.jstr t) => some t
          | _ => none
      | _ => none
  | _ => none

/-- Two parameter lists conflict when they declare different types for a
parameter of the same name. -/
def parametersConflict (a b : List JValue) : Bool :=
  a.any (fun p => b.any (fun q =>
    decide (paramName p = paramName q) &&
      decide (paramTypeName p ≠ paramTypeName q)))

def parametersConflictJ : JValue → JValue → Bool
  | .jarr a, .jarr b => parametersConflict a b
  | _, _ => false

/-- Modelled from the spec: `verify_parameters_are_the_same` of
`generator_utils.py` (not in `src/`); spec §4.1: "if the two occurrences
declare different types for the same named parameter, this is a fatal
configuration error (signal: parameter-mismatch failure)". -/
def verifyParametersAreTheSame (a b : JValue) (specPath : String) :
    Except GenError Unit :=
  if parametersConflictJ a b then
    throw (.parameterMismatch specPath)
  else
    pure ()

/-- All schemas reachable from the registry roles the reference resolver
covers (spec §4.2): the default error schema, request bodies and response
bodies per status code. -/
def collectSchemas (defaultResponseSchema : MSchema) (r : HandlerRegistry) :
    List MSchema :=
  defaultResponseSchema ::
    r.paths.flatMap (fun pm => pm.2.flatMap (fun md =>
      md.2.request_body_schema.toList ++
        md.2.response_body_schema.filterMap (fun p => p.2)))

/-- Name assignment with fail-fast collision detection (spec §4.2: equal
schemas collapse to one entry, distinct schemas colliding on a name fail). -/
def assignNames (l : List MSchema) (acc : List (String × MSchema)) :
    Except GenError (List (String × MSchema)) :=
  match l with
  | [] => pure acc
  | s :: rest =>
      match lookupA acc (getSwaggerTitle s) with
      | some s0 =>
          if s0 = s then assignNames rest acc
          else throw (.namingCollision (getSwaggerTitle s))
      | none => assignNames rest (acc ++ [(getSwaggerTitle s, s)])

/-- Modelled from the spec: `get_unique_schema_definitions` of
`generator_utils.py` (not in `src/`); spec §4.2: produce a
name → definition mapping for every schema used anywhere in the registry. -/
def getUniqueSchemaDefinitions (conv : MSchema → JValue)
    (defaultResponseSchema : MSchema) (r : HandlerRegistry) :
    Except GenError (List (String × JValue)) :=
  match assignNames (collectSchemas defaultResponseSchema r) [] with
  | .error e => .error e
  | .ok named => .ok (named.map (fun p => (p.1, conv p.2)))

/-- The concrete authenticators declared across all endpoints. -/
def registryAuthenticators (r : HandlerRegistry) : List Authenticator :=
  r.default_authenticators ++
    r.paths.flatMap (fun pm => pm.2.flatMap (fun md =>
      md.2.authenticators.filterMap (fun e =>
        match e with
        | .auth a => some a
        | .useDefault => none)))

/-- Deduplication of authenticators by identity, first occurrence kept. -/
def dedupById (l : List Authenticator) (seen : List Nat) : List Authenticator :=
  match l with
  | [] => []
  | a :: rest =>
      if a.id ∈ seen then dedupById rest seen
      else a :: dedupById rest (a.id :: seen)

/-- Modelled from the spec: `get_unique_authenticators` of
`generator_utils.py` (not in `src/`); spec §4.5/§3: authenticators are
deduplicated by identity across the registry. -/
def getUniqueAuthenticators (r : HandlerRegistry) : List Authenticator :=
  dedupById (registryAuthenticators r) []

/-- Stable insertion of a key-value pair into a key-sorted list. -/
def insertPairSorted (p : String × JValue) :
    List (String × JValue) → List (String × JValue)
  | [] => [p]
  | q :: qs => if p.1 ≤ q.1 then p :: q :: qs else q :: insertPairSorted p qs

/-- Sort an association list by key (insertion sort). -/
def sortPairsByKey : List (String × JValue) → List (String × JValue)
  | [] => []
  | p :: ps => insertPairSorted p (sortPairsByKey ps)

mutual

/-- Modelled from the spec:
`recursively_convert_dict_to_ordered_dict` of `generator_utils.py` (not in
`src/`); spec §4.1 step 5: "recursively produce a canonical key-ordering of
the whole document (object keys sorted lexicographically at every level)". -/
def sortJson : JValue → JValue
  | .jnull => .jnull
  | .jbool b => .jbool b
  | .jnum n => .jnum n
  | .jstr s => .jstr s
  | .jarr xs => .jarr (sortJsonList xs)
  | .jobj kvs => .jobj (sortPairsByKey (sortJsonPairs kvs))

def sortJsonList : List JValue → List JValue
  | [] => []
  | x :: xs => sortJson x :: sortJsonList xs

def sortJsonPairs : List (String × JValue) → List (String × JValue)
  | [] => []
  | (k, v) :: rest => (k, sortJson v) :: sortJsonPairs rest

end

/-- One top-level schema field turned into a swagger parameter
(`SwaggerV3Generator._convert_schema_to_list_of_parameters`, loop body):
the `explode`, `description` and `style` hints are popped out of the
converted jsonschema (`jsonschema.pop(key, None)`, which yields Python
`None` both for an absent hint and for a stored null) and re-emitted at
the parameter's own top level only under the source's `is not None`
guards (lines 376-381). -/
def fieldToParameter (conv : MField → List (String × JValue)) (in_ : String)
    (prop : String) (field : MField) : JValue :=
  let jsonschema := conv field
  let pe := popKey jsonschema sw.explode
  let pd := popKey pe.2 sw.description
  let ps := popKey pd.2 sw.style
  let explode := pe.1.getD .jnull
  let description := pd.1.getD .jnull
  let style := ps.1.getD .jnull
  let parameter : List (String × JValue) :=
    [(sw.name, .jstr prop), (sw.in_, .jstr in_), (sw.schema, .jobj ps.2),
     (sw.required, .jbool field.required)]
  let parameter :=
    if explode.isNull then parameter else parameter ++ [(sw.explode, explode)]
  let parameter :=
    if description.isNull then parameter
    else parameter ++ [(sw.description, description)]
  let parameter :=
    if style.isNull then parameter else parameter ++ [(sw.style, style)]
  .jobj parameter

/-- `SwaggerV3Generator._convert_schema_to_list_of_parameters`. -/
def convertSchemaToListOfParameters (conv : MField → List (String × JValue))
    (in_ : String) (schema : MSchema) : List JValue :=
  schema.fields.map (fun pf => fieldToParameter conv in_ pf.1 pf.2)

/-- `SwaggerV3Generator._get_response_definition`. -/
def getResponseDefinition (schema : MSchema) : JValue :=
  .jobj [(sw.description, .jstr (getResponseDescription schema)),
         (sw.content,
          .jobj [("application/json",
                  .jobj [(sw.schema, getRefSchema refBase schema)])])]

/-- The response entry for one declared status code: a full response
definition for a schema, the body-absent description for an explicit
`None` (source lines 218-225). -/
def responseEntryFor : Option MSchema → JValue
  | some schema => getResponseDefinition schema
  | none => .jobj [(sw.description, .jstr "No response body.")]

/-- The loop over `d.response_body_schema.items()` (source lines 218-225),
assigning `responses_definition[str(status_code)]` in order. -/
def responsesFold (rbs : List (Nat × Option MSchema))
    (acc : List (String × JValue)) : List (String × JValue) :=
  match rbs with
  | [] => acc
  | p :: rest =>
      responsesFold rest (insertAssoc acc (natToStr p.1) (responseEntryFor p.2))

/-- The `responses_definition` of an operation: the `default` entry from
the configured default response schema, then one entry per declared status
code (an explicit `None` schema renders as "No response body."). -/
def buildResponses (g : Generator) (rbs : List (Nat × Option MSchema)) :
    List (String × JValue) :=
  responsesFold rbs [(sw.default, getResponseDefinition g.default_response_schema)]

/-- `d.endpoint or get_swagger_title(d.func)` (Python `or`: `None` and the
empty string are falsy). -/
def operationIdOf (d : PathDefinition) : String :=
  match d.endpoint with
  | some e => if e = "" then d.func_title else e
  | none => d.func_title

/-- The security block of an operation (source lines 281-297): zero
authenticators emit an explicit empty security list; otherwise concrete
authenticators contribute their requirements and each `USE_DEFAULT`
sentinel contributes the default security, the whole list being emitted
only when at least one concrete authenticator is present. -/
def operationSecurity (defaultSecurity : Option (List JValue))
    (auths : List AuthEntry) : List (String × JValue) :=
  if auths.isEmpty then
    [(sw.security, .jarr [])]
  else
    let security := auths.flatMap (fun e =>
      match e with
      | .auth a => a.securityRequirements
      | .useDefault =>
          match defaultSecurity with
          | some ds => ds
          | none => [])
    if auths.any AuthEntry.isConcrete then [(sw.security, .jarr security)]
    else []

/-- The `parameters_definition` of an operation (source lines 227-250):
query-string parameters, then header parameters, the headers schema being
resolved against the registry default through the `USE_DEFAULT` sentinel. -/
def opParameters (g : Generator) (defaultHeadersSchema : Option MSchema)
    (d : PathDefinition) : List JValue :=
  (match d.query_string_schema with
   | some s => convertSchemaToListOfParameters g.query_string_converter sw.query s
   | none => []) ++
  (match
      (match d.headers_schema with
       | .useDefault => defaultHeadersSchema
       | .explicit s => s) with
   | some s => convertSchemaToListOfParameters g.headers_converter sw.header s
   | none => [])

/-- The optional `description` entry of an operation (`if d.func.__doc__:`). -/
def opDescPart (d : PathDefinition) : List (String × JValue) :=
  match d.func_doc with
  | some doc => if doc = "" then [] else [(sw.description, JValue.jstr doc)]
  | none => []

/-- The optional `parameters` entry of an operation. -/
def opParamsPart (g : Generator) (defaultHeadersSchema : Option MSchema)
    (d : PathDefinition) : List (String × JValue) :=
  if (opParameters g defaultHeadersSchema d).isEmpty then []
  else [(sw.parameters, JValue.jarr (opParameters g defaultHeadersSchema d))]

/-- The optional `requestBody` entry of an operation (source lines
252-264 and 278-279). -/
def opBodyPart (d : PathDefinition) : List (String × JValue) :=
  match d.request_body_schema with
  | some s =>
      [(sw.request_body,
        JValue.jobj
          [(sw.required, .jbool true),
           (sw.content,
            .jobj [("application/json",
                    .jobj [(sw.schema, getRefSchema refBase s)])])])]
  | none => []

/-- The optional `tags` entry of an operation. -/
def opTagsPart (d : PathDefinition) : List (String × JValue) :=
  if d.tags.isEmpty then []
  else [(sw.tags, JValue.jarr (d.tags.map JValue.jstr))]

/-- The optional `summary` entry of an operation. -/
def opSummaryPart (d : PathDefinition) : List (String × JValue) :=
  match d.summary with
  | some s => if s = "" then [] else [(sw.summary, JValue.jstr s)]
  | none => []

/-- The operation object built for one (method, definition) pair
(`SwaggerV3Generator._get_paths`, body of the method loop).  Each Python
dict assignment adds a distinct fresh key, so the object is the
concatenation of its optional parts in assignment order. -/
def buildOperation (g : Generator) (defaultHeadersSchema : Option MSchema)
    (defaultSecurity : Option (List JValue)) (d : PathDefinition) :
    List (String × JValue) :=
  [(sw.operation_id, .jstr (operationIdOf d)),
   (sw.responses, .jobj (buildResponses g d.response_body_schema))] ++
    opDescPart d ++ opParamsPart g defaultHeadersSchema d ++ opBodyPart d ++
    operationSecurity defaultSecurity d.authenticators ++ opTagsPart d ++
    opSummaryPart d

/-- The parameter object emitted for one typed placeholder (source lines
183-193). -/
def pathParamObj (arg : PathArg) (ty : String) : JValue :=
  .jobj [(sw.name, .jstr arg.name), (sw.required, .jbool true),
         (sw.in_, .jstr sw.path), (sw.style, .jstr sw.simple),
         (sw.schema, .jobj [(sw.type_, .jstr ty)])]

/-- One path parameter emitted for a typed placeholder (source lines
182-195); an unrecognized converter tag raises (Python `KeyError` on the
lookup table). -/
def pathArgToParameter (arg : PathArg) : Except GenError JValue :=
  match lookupA flaskConvertersToSwaggerTypes arg.type with
  | none => throw (.unknownConverter arg.type)
  | some ty => pure (pathParamObj arg ty)

/-- The path-parameter half of the paths loop (source lines 181-206):
emit one parameter per path arg (an unrecognized tag raising), and when
the spec path was already seen, verify the parameter lists agree before
overwriting them. -/
def buildPathParams (pd0 : List (String × JValue)) (specPath : String)
    (pathArgs : List PathArg) : Except GenError (List (String × JValue)) :=
  if pathArgs.isEmpty then pure pd0
  else
    match pathArgs.mapM pathArgToParameter with
    | .error e => .error e
    | .ok pathParams =>
        match lookupA pd0 sw.parameters with
        | some existing =>
            match verifyParametersAreTheSame existing (.jarr pathParams)
                specPath with
            | .error e => .error e
            | .ok _ => pure (insertAssoc pd0 sw.parameters (.jarr pathParams))
        | none => pure (insertAssoc pd0 sw.parameters (.jarr pathParams))

/-- The method loop of `SwaggerV3Generator._get_paths` (source lines
208-303): insert one operation object per non-skipped method. -/
def methodsFold (g : Generator) (defaultHeadersSchema : Option MSchema)
    (defaultSecurity : Option (List JValue))
    (methods : List (String × PathDefinition))
    (pd1 : List (String × JValue)) : List (String × JValue) :=
  match methods with
  | [] => pd1
  | md :: rest =>
      methodsFold g defaultHeadersSchema defaultSecurity rest
        (if !g.include_hidden && md.2.hidden then pd1
         else
           insertAssoc pd1 md.1.toLower
             (.jobj (buildOperation g defaultHeadersSchema defaultSecurity
               md.2)))

/-- Processing of one (path, methods) entry of the registry's paths
(`SwaggerV3Generator._get_paths`, loop body): hidden-path skip, spec-path
merge, path-parameter construction and verification, then the per-method
operation objects. -/
def processPath (g : Generator) (defaultHeadersSchema : Option MSchema)
    (defaultSecurity : Option (List JValue))
    (acc : List (String × List (String × JValue)))
    (path : RawPath) (methods : List (String × PathDefinition)) :
    Except GenError (List (String × List (String × JValue))) :=
  if !g.include_hidden && methods.all (fun md => md.2.hidden) then
    pure acc
  else
    match buildPathParams ((lookupA acc (formatPathForSwagger path).1).getD [])
        (formatPathForSwagger path).1 (formatPathForSwagger path).2 with
    | .error e => .error e
    | .ok pd1 =>
        pure (insertAssoc acc (formatPathForSwagger path).1
          (methodsFold g defaultHeadersSchema defaultSecurity methods pd1))

/-- The paths loop of `SwaggerV3Generator._get_paths`. -/
def getPathsAux (g : Generator) (defaultHeadersSchema : Option MSchema)
    (defaultSecurity : Option (List JValue))
    (acc : List (String × List (String × JValue))) :
    List (RawPath × List (String × PathDefinition)) →
    Except GenError (List (String × List (String × JValue)))
  | [] => pure acc
  | pm :: rest =>
      match processPath g defaultHeadersSchema defaultSecurity acc pm.1 pm.2 with
      | .error e => .error e
      | .ok acc1 => getPathsAux g defaultHeadersSchema defaultSecurity acc1 rest

/-- `SwaggerV3Generator._get_paths`. -/
def getPaths (g : Generator)
    (paths : List (RawPath × List (String × PathDefinition)))
    (defaultHeadersSchema : Option MSchema)
    (defaultSecurity : Option (List JValue)) :
    Except GenError (List (String × List (String × JValue))) :=
  getPathsAux g defaultHeadersSchema defaultSecurity [] paths

/-- Modelled from the spec: `_get_info` of `swagger_generator_base.py`
(not in `src/`); spec §4.1 step 4: the "info block
(version/title/description)". -/
def getInfo (g : Generator) : JValue :=
  .jobj [(sw.title, .jstr g.title), (sw.version, .jstr g.version),
         (sw.description, .jstr g.description)]

/-- `SwaggerV3Generator._get_components`. -/
def getComponents (g : Generator) (r : HandlerRegistry) :
    Except GenError (List (String × JValue)) :=
  match getUniqueSchemaDefinitions g.schema_converter
      g.default_response_schema r with
  | .error e => .error e
  | .ok schemas =>
      let components : List (String × JValue) :=
        if schemas.isEmpty then [] else [(sw.schemas, .jobj schemas)]
      let securitySchemes := (getUniqueAuthenticators r).foldl
        (fun acc a => updateAssoc acc a.securitySchemes) []
      .ok (if securitySchemes.isEmpty then components
        else components ++ [(sw.security_schemes, .jobj securitySchemes)])

/-- The top-level swagger dict assembled by `generate` (source lines
131-149) before the optional key-sort. -/
def assembleSwagger (g : Generator) (components : List (String × JValue))
    (paths : List (String × List (String × JValue)))
    (defaultSecurity : List JValue) (host : Option String) : JValue :=
  let swagger : List (String × JValue) :=
    [(sw.openapi, .jstr openApiVersion), (sw.info, getInfo g),
     (sw.paths, .jobj (paths.map (fun p => (p.1, JValue.jobj p.2)))),
     (sw.components, .jobj components)]
  let swagger :=
    if defaultSecurity.isEmpty then swagger
    else swagger ++ [(sw.security, .jarr defaultSecurity)]
  let swagger :=
    if g.tags.isEmpty then swagger
    else swagger ++ [(sw.tags, .jarr (g.tags.map Tag.as_swagger))]
  let servers := g.servers ++
    (match host with
     | some h => [Server.mk h]
     | none => [])
  let swagger :=
    if servers.isEmpty then swagger
    else swagger ++ [(sw.servers, .jarr (servers.map Server.as_swagger))]
  JValue.jobj swagger

/-- `SwaggerV3Generator.generate`. -/
def generate (g : Generator) (registry : HandlerRegistry)
    (host : Option String) (sortKeys : Bool) : Except GenError JValue :=
  match getComponents g registry with
  | .error e => .error e
  | .ok components =>
      let defaultSecurity := registry.default_authenticators.flatMap
        (fun a => a.securityRequirements)
      match getPaths g registry.paths registry.default_headers_schema
          (some defaultSecurity) with
      | .error e => .error e
      | .ok paths =>
          let doc := assembleSwagger g components paths defaultSecurity host
          .ok (if sortKeys then sortJson doc else doc)


/-! ### Association-list lemmas -/

theorem lookupA_nil {α : Type} (k : String) :
    lookupA ([] : List (String × α)) k = none := rfl

theorem lookupA_cons {α : Type} (k1 : String) (v : α) (rest : List (String × α))
    (k : String) :
    lookupA ((k1, v) :: rest) k = if k1 = k then some v else lookupA rest k := rfl

theorem lookupA_insertAssoc_self {α : Type} (d : List (String × α)) (k : String)
    (v : α) : lookupA (insertAssoc d k v) k = some v := by
  induction d with
  | nil => simp [insertAssoc, lookupA]
  | cons hd tl ih =>
    obtain ⟨k1, v1⟩ := hd
    by_cases h : k1 = k
    · simp [insertAssoc, h, lookupA]
    · simp [insertAssoc, h, lookupA, ih]

theorem lookupA_insertAssoc_ne {α : Type} (d : List (String × α)) (k k1 : String)
    (v : α) (h : k1 ≠ k) : lookupA (insertAssoc d k v) k1 = lookupA d k1 := by
  have hk : ¬(k = k1) := fun e => h e.symm
  induction d with
  | nil => simp [insertAssoc, lookupA, hk]
  | cons hd tl ih =>
    obtain ⟨k2, v2⟩ := hd
    by_cases hh : k2 = k
    · subst hh
      simp [insertAssoc, lookupA, hk]
    · simp [insertAssoc, hh, lookupA, ih]

theorem lookupA_insertAssoc_isSome {α : Type} (d : List (String × α))
    (k k1 : String) (v : α) (h : (lookupA d k1).isSome) :
    (lookupA (insertAssoc d k v) k1).isSome := by
  by_cases hk : k1 = k
  · subst hk
    rw [lookupA_insertAssoc_self]
    rfl
  · rw [lookupA_insertAssoc_ne d k k1 v hk]
    exact h

theorem lookupA_eq_none_of_not_mem {α : Type} (d : List (String × α))
    (k : String) (h : k ∉ keysOf d) : lookupA d k = none := by
  induction d with
  | nil => rfl
  | cons hd tl ih =>
    obtain ⟨k1, v1⟩ := hd
    simp only [keysOf, List.map_cons, List.mem_cons, not_or] at h
    rw [lookupA_cons, if_neg (fun e => h.1 e.symm)]
    exact ih (by simpa [keysOf] using h.2)

theorem lookupA_append_left {α : Type} (d e : List (String × α)) (k : String)
    (v : α) (h : lookupA d k = some v) : lookupA (d ++ e) k = some v := by
  induction d with
  | nil => simp [lookupA] at h
  | cons hd tl ih =>
    obtain ⟨k1, v1⟩ := hd
    rw [List.cons_append, lookupA_cons]
    rw [lookupA_cons] at h
    by_cases hh : k1 = k
    · rw [if_pos hh] at h ⊢
      exact h
    · rw [if_neg hh] at h ⊢
      exact ih h

theorem lookupA_append_right {α : Type} (d e : List (String × α)) (k : String)
    (h : lookupA d k = none) : lookupA (d ++ e) k = lookupA e k := by
  induction d with
  | nil => rfl
  | cons hd tl ih =>
    obtain ⟨k1, v1⟩ := hd
    rw [List.cons_append, lookupA_cons]
    rw [lookupA_cons] at h
    by_cases hh : k1 = k
    · rw [if_pos hh] at h
      exact absurd h (by simp)
    · rw [if_neg hh] at h ⊢
      exact ih h

/-- Skip a block of bindings none of whose keys is `k`. -/
theorem lookupA_append_skip {α : Type} (d e : List (String × α)) (k : String)
    (h : ∀ k1 ∈ keysOf d, k1 ≠ k) : lookupA (d ++ e) k = lookupA e k := by
  apply lookupA_append_right
  apply lookupA_eq_none_of_not_mem
  intro hmem
  exact h k hmem rfl

theorem mem_keysOf_eraseKey {α : Type} (d : List (String × α)) (k k1 : String)
    (h : k1 ∈ keysOf (eraseKey d k)) : k1 ∈ keysOf d := by
  induction d with
  | nil => simpa [eraseKey] using h
  | cons hd tl ih =>
    obtain ⟨k2, v2⟩ := hd
    by_cases hh : k2 = k
    · simp only [eraseKey, if_pos hh] at h
      simp only [keysOf, List.map_cons, List.mem_cons]
      right
      exact h
    · simp only [eraseKey, if_neg hh] at h
      simp only [keysOf, List.map_cons, List.mem_cons] at h ⊢
      rcases h with h | h
      · left; exact h
      · right; exact ih h

theorem keysOf_eraseKey_nodup {α : Type} (d : List (String × α)) (k : String)
    (h : (keysOf d).Nodup) : (keysOf (eraseKey d k)).Nodup := by
  induction d with
  | nil => simpa [eraseKey] using h
  | cons hd tl ih =>
    obtain ⟨k2, v2⟩ := hd
    simp only [keysOf, List.map_cons, List.nodup_cons] at h
    by_cases hh : k2 = k
    · simp only [eraseKey, if_pos hh]
      exact h.2
    · simp only [eraseKey, if_neg hh, keysOf, List.map_cons, List.nodup_cons]
      refine ⟨fun hmem => h.1 (mem_keysOf_eraseKey tl k k2 hmem), ih h.2⟩

theorem lookupA_eraseKey_ne {α : Type} (d : List (String × α)) (k k1 : String)
    (h : k1 ≠ k) : lookupA (eraseKey d k) k1 = lookupA d k1 := by
  induction d with
  | nil => rfl
  | cons hd tl ih =>
    obtain ⟨k2, v2⟩ := hd
    by_cases hh : k2 = k
    · rw [eraseKey, if_pos hh, lookupA_cons, if_neg]
      intro e
      exact h (by rw [← e]; exact hh)
    · rw [eraseKey, if_neg hh, lookupA_cons, lookupA_cons, ih]

theorem lookupA_eraseKey_self {α : Type} (d : List (String × α)) (k : String)
    (h : (keysOf d).Nodup) : lookupA (eraseKey d k) k = none := by
  induction d with
  | nil => rfl
  | cons hd tl ih =>
    obtain ⟨k2, v2⟩ := hd
    simp only [keysOf, List.map_cons, List.nodup_cons] at h
    by_cases hh : k2 = k
    · rw [eraseKey, if_pos hh]
      apply lookupA_eq_none_of_not_mem
      rw [← hh]
      exact h.1
    · rw [eraseKey, if_neg hh, lookupA_cons, if_neg hh]
      exact ih h.2

theorem popKey_fst {α : Type} (d : List (String × α)) (k : String) :
    (popKey d k).1 = lookupA d k := by
  unfold popKey
  cases h : lookupA d k <;> simp

theorem popKey_snd_lookup_ne {α : Type} (d : List (String × α)) (k k1 : String)
    (h : k1 ≠ k) : lookupA (popKey d k).2 k1 = lookupA d k1 := by
  unfold popKey
  cases hl : lookupA d k
  · simp
  · simp [lookupA_eraseKey_ne d k k1 h]

theorem popKey_snd_lookup_self {α : Type} (d : List (String × α)) (k : String)
    (h : (keysOf d).Nodup) : lookupA (popKey d k).2 k = none := by
  unfold popKey
  cases hl : lookupA d k
  · simpa using hl
  · simpa using lookupA_eraseKey_self d k h

theorem popKey_snd_nodup {α : Type} (d : List (String × α)) (k : String)
    (h : (keysOf d).Nodup) : (keysOf (popKey d k).2).Nodup := by
  unfold popKey
  cases hl : lookupA d k
  · simpa using h
  · simpa using keysOf_eraseKey_nodup d k h

/-! ### Sortedness of the generated document -/

/-- A list of keys is in (non-strict) lexicographic order. -/
def strKeysSorted : List String → Bool
  | [] => true
  | [_] => true
  | a :: b :: rest => decide (a ≤ b) && strKeysSorted (b :: rest)

mutual

/-- Every object in the value has its keys in lexicographic order, at
every nesting level. -/
def keysSortedB : JValue → Bool
  | .jnull => true
  | .jbool _ => true
  | .jnum _ => true
  | .jstr _ => true
  | .jarr xs => listAllSorted xs
  | .jobj kvs => strKeysSorted (keysOf kvs) && pairsAllSorted kvs

def listAllSorted : List JValue → Bool
  | [] => true
  | x :: xs => keysSortedB x && listAllSorted xs

def pairsAllSorted : List (String × JValue) → Bool
  | [] => true
  | (_, v) :: rest => keysSortedB v && pairsAllSorted rest

end

theorem strKeysSorted_cons (a : String) (l : List String)
    (h : strKeysSorted l = true) (ha : ∀ b ∈ l.head?, a ≤ b) :
    strKeysSorted (a :: l) = true := by
  cases l with
  | nil => rfl
  | cons b rest =>
    have hab : a ≤ b := ha b rfl
    simp [strKeysSorted, hab, h]

theorem insertPairSorted_keys_sorted (p : String × JValue)
    (l : List (String × JValue)) (h : strKeysSorted (keysOf l) = true) :
    strKeysSorted (keysOf (insertPairSorted p l)) = true := by
  induction l with
  | nil => rfl
  | cons q qs ih =>
    rw [insertPairSorted]
    by_cases hle : p.1 ≤ q.1
    · rw [if_pos hle]
      simp only [keysOf, List.map_cons]
      simp only [keysOf, List.map_cons] at h
      exact strKeysSorted_cons p.1 (q.1 :: List.map Prod.fst qs) h
        (by intro b hb; simp at hb; rw [← hb]; exact hle)
    · rw [if_neg hle]
      have hq : q.1 ≤ p.1 := le_of_not_le hle
      cases qs with
      | nil =>
        simp [insertPairSorted, keysOf, strKeysSorted, hq]
      | cons q2 rest =>
        simp only [keysOf, List.map_cons] at h
        rw [strKeysSorted] at h
        simp only [Bool.and_eq_true, decide_eq_true_eq] at h
        have h1 : q.1 ≤ q2.1 := h.1
        have h2 : strKeysSorted (keysOf (q2 :: rest)) = true := by
          simpa [keysOf] using h.2
        have hrec := ih h2
        rw [insertPairSorted]
        by_cases hle2 : p.1 ≤ q2.1
        · rw [if_pos hle2]
          simp only [keysOf, List.map_cons]
          rw [strKeysSorted]
          simp only [Bool.and_eq_true, decide_eq_true_eq]
          refine ⟨hq, ?_⟩
          rw [insertPairSorted] at hrec
          rw [if_pos hle2] at hrec
          simpa [keysOf] using hrec
        · rw [if_neg hle2]
          simp only [keysOf, List.map_cons]
          rw [strKeysSorted]
          simp only [Bool.and_eq_true, decide_eq_true_eq]
          refine ⟨h1, ?_⟩
          rw [insertPairSorted] at hrec
          rw [if_neg hle2] at hrec
          simpa [keysOf] using hrec

theorem sortPairsByKey_keys_sorted (l : List (String × JValue)) :
    strKeysSorted (keysOf (sortPairsByKey l)) = true := by
  induction l with
  | nil => rfl
  | cons p ps ih => exact insertPairSorted_keys_sorted p (sortPairsByKey ps) ih

theorem insertPairSorted_pairsAllSorted (p : String × JValue)
    (l : List (String × JValue)) :
    pairsAllSorted (insertPairSorted p l) =
      (keysSortedB p.2 && pairsAllSorted l) := by
  induction l with
  | nil =>
    obtain ⟨k, v⟩ := p
    simp [insertPairSorted, pairsAllSorted]
  | cons q qs ih =>
    obtain ⟨k, v⟩ := p
    obtain ⟨k2, v2⟩ := q
    rw [insertPairSorted]
    by_cases hle : k ≤ k2
    · simp only [if_pos hle]
      simp [pairsAllSorted]
    · simp only [if_neg hle]
      rw [pairsAllSorted]
      rw [ih]
      rw [pairsAllSorted]
      rw [← Bool.and_assoc, Bool.and_comm (keysSortedB v2), Bool.and_assoc]

theorem sortPairsByKey_pairsAllSorted (l : List (String × JValue))
    (h : pairsAllSorted l = true) :
    pairsAllSorted (sortPairsByKey l) = true := by
  induction l with
  | nil => rfl
  | cons p ps ih =>
    obtain ⟨k, v⟩ := p
    rw [pairsAllSorted] at h
    simp only [Bool.and_eq_true] at h
    rw [sortPairsByKey, insertPairSorted_pairsAllSorted]
    simp [h.1, ih h.2]

mutual

theorem sortJson_sorted : ∀ v, keysSortedB (sortJson v) = true
  | .jnull => rfl
  | .jbool _ => rfl
  | .jnum _ => rfl
  | .jstr _ => rfl
  | .jarr xs => by
      rw [sortJson, keysSortedB]
      exact sortJsonList_sorted xs
  | .jobj kvs => by
      rw [sortJson, keysSortedB]
      simp only [Bool.and_eq_true]
      exact ⟨sortPairsByKey_keys_sorted _,
        sortPairsByKey_pairsAllSorted _ (sortJsonPairs_sorted kvs)⟩

theorem sortJsonList_sorted : ∀ xs, listAllSorted (sortJsonList xs) = true
  | [] => rfl
  | x :: xs => by
      rw [sortJsonList, listAllSorted]
      simp only [Bool.and_eq_true]
      exact ⟨sortJson_sorted x, sortJsonList_sorted xs⟩

theorem sortJsonPairs_sorted : ∀ kvs, pairsAllSorted (sortJsonPairs kvs) = true
  | [] => rfl
  | (k, v) :: rest => by
      rw [sortJsonPairs, pairsAllSorted]
      simp only [Bool.and_eq_true]
      exact ⟨sortJson_sorted v, sortJsonPairs_sorted rest⟩

end

/-! ### Lemmas about the responses object -/

theorem responsesFold_lookup_skip (rbs : List (Nat × Option MSchema))
    (acc : List (String × JValue)) (k : String)
    (h : ∀ p ∈ rbs, natToStr p.1 ≠ k) :
    lookupA (responsesFold rbs acc) k = lookupA acc k := by
  induction rbs generalizing acc with
  | nil => rfl
  | cons p rest ih =>
    rw [responsesFold]
    rw [ih _ (fun q hq => h q (List.mem_cons_of_mem p hq))]
    exact lookupA_insertAssoc_ne acc (natToStr p.1) k (responseEntryFor p.2)
      (fun e => h p (List.mem_cons_self p rest) e.symm)

theorem responsesFold_isSome_preserved (rbs : List (Nat × Option MSchema))
    (acc : List (String × JValue)) (k : String)
    (h : (lookupA acc k).isSome) :
    (lookupA (responsesFold rbs acc) k).isSome := by
  induction rbs generalizing acc with
  | nil => exact h
  | cons p rest ih =>
    rw [responsesFold]
    exact ih _ (lookupA_insertAssoc_isSome acc (natToStr p.1) k _ h)

theorem responsesFold_mem_isSome (rbs : List (Nat × Option MSchema))
    (acc : List (String × JValue)) (p : Nat × Option MSchema)
    (hmem : p ∈ rbs) :
    (lookupA (responsesFold rbs acc) (natToStr p.1)).isSome := by
  induction rbs generalizing acc with
  | nil => cases hmem
  | cons q rest ih =>
    rw [responsesFold]
    rcases List.mem_cons.mp hmem with h | h
    · subst h
      apply responsesFold_isSome_preserved
      rw [lookupA_insertAssoc_self]
      rfl
    · exact ih _ h

theorem buildResponses_default (g : Generator)
    (rbs : List (Nat × Option MSchema)) :
    lookupA (buildResponses g rbs) sw.default =
      some (getResponseDefinition g.default_response_schema) := by
  rw [buildResponses,
    responsesFold_lookup_skip rbs _ sw.default
      (fun p _ => natToStr_ne_default p.1)]
  rfl

theorem buildResponses_mem_isSome (g : Generator)
    (rbs : List (Nat × Option MSchema)) (p : Nat × Option MSchema)
    (hmem : p ∈ rbs) :
    (lookupA (buildResponses g rbs) (natToStr p.1)).isSome :=
  responsesFold_mem_isSome rbs _ p hmem

theorem responsesFold_explicit (rbs : List (Nat × Option MSchema))
    (acc : List (String × JValue)) (sc : Nat) (os : Option MSchema)
    (hnd : (rbs.map Prod.fst).Nodup) (hmem : (sc, os) ∈ rbs) :
    lookupA (responsesFold rbs acc) (natToStr sc) = some (responseEntryFor os) := by
  induction rbs generalizing acc with
  | nil => cases hmem
  | cons q rest ih =>
    rw [responsesFold]
    simp only [List.map_cons, List.nodup_cons] at hnd
    rcases List.mem_cons.mp hmem with h | h
    · subst h
      rw [responsesFold_lookup_skip rest _ (natToStr sc)
        (fun p hp e => hnd.1 (by
          show sc ∈ List.map Prod.fst rest
          rw [← natToStr_inj e]
          exact List.mem_map_of_mem Prod.fst hp))]
      exact lookupA_insertAssoc_self acc (natToStr sc) _
    · exact ih _ hnd.2 h

theorem buildResponses_unmapped (g : Generator)
    (rbs : List (Nat × Option MSchema)) (sc : Nat)
    (hnot : sc ∉ rbs.map Prod.fst) :
    lookupA (buildResponses g rbs) (natToStr sc) = none := by
  rw [buildResponses,
    responsesFold_lookup_skip rbs _ (natToStr sc)
      (fun p hp e => hnot (by
        rw [← natToStr_inj e]
        exact List.mem_map_of_mem Prod.fst hp))]
  rw [lookupA_cons, if_neg (fun e => natToStr_ne_default sc e.symm)]
  rfl

/-! ### Lemmas about the operation object -/

theorem lookupA_append_none_right {α : Type} (d e : List (String × α))
    (k : String) (h : lookupA e k = none) :
    lookupA (d ++ e) k = lookupA d k := by
  cases hl : lookupA d k
  · rw [lookupA_append_right d e k hl, h]
  · rw [lookupA_append_left d e k _ hl]

theorem keysOf_opDescPart (d : PathDefinition) :
    ∀ k ∈ keysOf (opDescPart d), k = sw.description := by
  unfold opDescPart
  cases hfd : d.func_doc with
  | none => simp [keysOf]
  | some doc => by_cases h : doc = "" <;> simp [h, keysOf]

theorem keysOf_opParamsPart (g : Generator) (dhs : Option MSchema)
    (d : PathDefinition) :
    ∀ k ∈ keysOf (opParamsPart g dhs d), k = sw.parameters := by
  unfold opParamsPart
  by_cases h : (opParameters g dhs d).isEmpty <;> simp [h, keysOf]

theorem keysOf_opBodyPart (d : PathDefinition) :
    ∀ k ∈ keysOf (opBodyPart d), k = sw.request_body := by
  unfold opBodyPart
  cases hb : d.request_body_schema <;> simp [keysOf]

theorem keysOf_operationSecurity (ds : Option (List JValue))
    (auths : List AuthEntry) :
    ∀ k ∈ keysOf (operationSecurity ds auths), k = sw.security := by
  unfold operationSecurity
  by_cases h : auths.isEmpty
  · simp [h, keysOf]
  · by_cases h2 : auths.any AuthEntry.isConcrete <;> simp [h, h2, keysOf]

theorem keysOf_opTagsPart (d : PathDefinition) :
    ∀ k ∈ keysOf (opTagsPart d), k = sw.tags := by
  unfold opTagsPart
  by_cases h : d.tags.isEmpty <;> simp [h, keysOf]

theorem keysOf_opSummaryPart (d : PathDefinition) :
    ∀ k ∈ keysOf (opSummaryPart d), k = sw.summary := by
  unfold opSummaryPart
  cases hs : d.summary with
  | none => simp [keysOf]
  | some s => by_cases h : s = "" <;> simp [h, keysOf]

theorem buildOperation_responses (g : Generator) (dhs : Option MSchema)
    (ds : Option (List JValue)) (d : PathDefinition) :
    lookupA (buildOperation g dhs ds d) sw.responses =
      some (.jobj (buildResponses g d.response_body_schema)) := by
  simp only [buildOperation, List.append_assoc, List.cons_append,
    List.nil_append]
  rw [lookupA_cons, if_neg (by decide), lookupA_cons, if_pos rfl]

theorem buildOperation_security (g : Generator) (dhs : Option MSchema)
    (ds : Option (List JValue)) (d : PathDefinition) :
    lookupA (buildOperation g dhs ds d) sw.security =
      lookupA (operationSecurity ds d.authenticators) sw.security := by
  simp only [buildOperation, List.append_assoc, List.cons_append,
    List.nil_append]
  rw [lookupA_cons, if_neg (by decide), lookupA_cons, if_neg (by decide)]
  rw [lookupA_append_skip _ _ _
    (fun k1 hk1 => by rw [keysOf_opDescPart d k1 hk1]; decide)]
  rw [lookupA_append_skip _ _ _
    (fun k1 hk1 => by rw [keysOf_opParamsPart g dhs d k1 hk1]; decide)]
  rw [lookupA_append_skip _ _ _
    (fun k1 hk1 => by rw [keysOf_opBodyPart d k1 hk1]; decide)]
  rw [lookupA_append_none_right]
  rw [lookupA_append_skip _ _ _
    (fun k1 hk1 => by rw [keysOf_opTagsPart d k1 hk1]; decide)]
  apply lookupA_eq_none_of_not_mem
  intro hmem
  have := keysOf_opSummaryPart d _ hmem
  simp [sw.security, sw.summary] at this

theorem buildOperation_requestBody (g : Generator) (dhs : Option MSchema)
    (ds : Option (List JValue)) (d : PathDefinition) :
    lookupA (buildOperation g dhs ds d) sw.request_body =
      lookupA (opBodyPart d) sw.request_body := by
  simp only [buildOperation, List.append_assoc, List.cons_append,
    List.nil_append]
  rw [lookupA_cons, if_neg (by decide), lookupA_cons, if_neg (by decide)]
  rw [lookupA_append_skip _ _ _
    (fun k1 hk1 => by rw [keysOf_opDescPart d k1 hk1]; decide)]
  rw [lookupA_append_skip _ _ _
    (fun k1 hk1 => by rw [keysOf_opParamsPart g dhs d k1 hk1]; decide)]
  apply lookupA_append_none_right
  rw [lookupA_append_skip _ _ _
    (fun k1 hk1 => by rw [keysOf_operationSecurity ds d.authenticators k1 hk1]; decide)]
  rw [lookupA_append_skip _ _ _
    (fun k1 hk1 => by rw [keysOf_opTagsPart d k1 hk1]; decide)]
  apply lookupA_eq_none_of_not_mem
  intro hmem
  have := keysOf_opSummaryPart d _ hmem
  simp [sw.request_body, sw.summary] at this

/-! ### Lemmas about parameter flattening -/

/-- An optional single-entry block of an emitted parameter. -/
def optEntry (k : String) (v : Option JValue) : List (String × JValue) :=
  match v with
  | some e => [(k, e)]
  | none => []

theorem keysOf_optEntry (k : String) (v : Option JValue) :
    ∀ k1 ∈ keysOf (optEntry k v), k1 = k := by
  cases v <;> simp [optEntry, keysOf]

theorem lookupA_optEntry_self (k : String) (v : Option JValue) :
    lookupA (optEntry k v) k = v := by
  cases v <;> simp [optEntry, lookupA]

theorem lookupA_optEntry_ne (k k1 : String) (v : Option JValue)
    (h : k1 ≠ k) : lookupA (optEntry k v) k1 = none := by
  have hk : ¬(k = k1) := fun e => h e.symm
  cases v <;> simp [optEntry, lookupA, hk]

/-- The hint value the parameter carries for one popped hint: the popped
value when the converter produced a non-null one, nothing when the hint
was absent or null (the `is not None` guard). -/
def hintValue : Option JValue → Option JValue
  | some v => if v.isNull then none else some v
  | none => none

theorem hintValue_ne_null (o : Option JValue) :
    hintValue o ≠ some JValue.jnull := by
  cases o with
  | none => simp [hintValue]
  | some v =>
    cases hv : v.isNull with
    | true => simp [hintValue, hv]
    | false =>
      simp only [hintValue, hv, Bool.false_eq_true, if_false]
      intro h
      have := Option.some.inj h
      rw [this] at hv
      cases hv

theorem ite_append {α : Type} (c : Prop) [Decidable c] (X Y : List α) :
    (if c then X else X ++ Y) = X ++ (if c then [] else Y) := by
  by_cases h : c <;> simp [h]

theorem optEntry_hintValue (k : String) (o : Option JValue) :
    optEntry k (hintValue o) =
      if (o.getD .jnull).isNull = true then [] else [(k, o.getD .jnull)] := by
  cases o with
  | none => simp [hintValue, optEntry, JValue.isNull]
  | some v => cases hv : v.isNull <;> simp [hintValue, optEntry, hv]

/-- The nested schema descriptor of a flattened parameter: the converter
output with the three presentation hints popped out. -/
def fieldSDict (conv : MField → List (String × JValue)) (field : MField) :
    List (String × JValue) :=
  (popKey (popKey (popKey (conv field) sw.explode).2 sw.description).2
    sw.style).2

/-- The flattened parameter entries for one field, written out: the four
fixed entries followed by the optional relocated hints (a hint the
converter did not produce, or produced as null, contributes nothing). -/
def fieldParamList (conv : MField → List (String × JValue))
    (in_ prop : String) (field : MField) : List (String × JValue) :=
  (([(sw.name, .jstr prop), (sw.in_, .jstr in_),
     (sw.schema, .jobj (fieldSDict conv field)),
     (sw.required, .jbool field.required)] ++
    optEntry sw.explode (hintValue (lookupA (conv field) sw.explode))) ++
   optEntry sw.description
     (hintValue (lookupA (conv field) sw.description))) ++
  optEntry sw.style (hintValue (lookupA (conv field) sw.style))

theorem fieldToParameter_unfold (conv : MField → List (String × JValue))
    (in_ prop : String) (field : MField) :
    fieldToParameter conv in_ prop field =
      .jobj (fieldParamList conv in_ prop field) := by
  unfold fieldToParameter fieldParamList fieldSDict
  simp only [popKey_fst]
  rw [popKey_snd_lookup_ne (conv field) sw.explode sw.description (by decide)]
  rw [popKey_snd_lookup_ne _ sw.description sw.style (by decide),
    popKey_snd_lookup_ne (conv field) sw.explode sw.style (by decide)]
  simp only [optEntry_hintValue, ite_append]

theorem fieldParamList_name (conv : MField → List (String × JValue))
    (in_ prop : String) (field : MField) :
    lookupA (fieldParamList conv in_ prop field) sw.name =
      some (.jstr prop) := by
  unfold fieldParamList
  exact lookupA_append_left _ _ _ _
    (lookupA_append_left _ _ _ _ (lookupA_append_left _ _ _ _ rfl))

theorem fieldParamList_in (conv : MField → List (String × JValue))
    (in_ prop : String) (field : MField) :
    lookupA (fieldParamList conv in_ prop field) sw.in_ =
      some (.jstr in_) := by
  unfold fieldParamList
  exact lookupA_append_left _ _ _ _
    (lookupA_append_left _ _ _ _ (lookupA_append_left _ _ _ _ rfl))

theorem fieldParamList_required (conv : MField → List (String × JValue))
    (in_ prop : String) (field : MField) :
    lookupA (fieldParamList conv in_ prop field) sw.required =
      some (.jbool field.required) := by
  unfold fieldParamList
  exact lookupA_append_left _ _ _ _
    (lookupA_append_left _ _ _ _ (lookupA_append_left _ _ _ _ rfl))

theorem fieldParamList_schema (conv : MField → List (String × JValue))
    (in_ prop : String) (field : MField) :
    lookupA (fieldParamList conv in_ prop field) sw.schema =
      some (.jobj (fieldSDict conv field)) := by
  unfold fieldParamList
  exact lookupA_append_left _ _ _ _
    (lookupA_append_left _ _ _ _ (lookupA_append_left _ _ _ _ rfl))

theorem fieldParamList_explode (conv : MField → List (String × JValue))
    (in_ prop : String) (field : MField) :
    lookupA (fieldParamList conv in_ prop field) sw.explode =
      hintValue (lookupA (conv field) sw.explode) := by
  unfold fieldParamList
  rw [lookupA_append_none_right _ _ _ (lookupA_optEntry_ne _ _ _ (by decide))]
  rw [lookupA_append_none_right _ _ _ (lookupA_optEntry_ne _ _ _ (by decide))]
  rw [lookupA_append_right]
  · exact lookupA_optEntry_self _ _
  · rfl

theorem fieldParamList_description (conv : MField → List (String × JValue))
    (in_ prop : String) (field : MField) :
    lookupA (fieldParamList conv in_ prop field) sw.description =
      hintValue (lookupA (conv field) sw.description) := by
  unfold fieldParamList
  rw [lookupA_append_none_right _ _ _ (lookupA_optEntry_ne _ _ _ (by decide))]
  rw [lookupA_append_right]
  · exact lookupA_optEntry_self _ _
  · rw [lookupA_append_right]
    · exact lookupA_optEntry_ne _ _ _ (by decide)
    · rfl

theorem fieldParamList_style (conv : MField → List (String × JValue))
    (in_ prop : String) (field : MField) :
    lookupA (fieldParamList conv in_ prop field) sw.style =
      hintValue (lookupA (conv field) sw.style) := by
  unfold fieldParamList
  rw [lookupA_append_right]
  · exact lookupA_optEntry_self _ _
  · rw [lookupA_append_right]
    · exact lookupA_optEntry_ne _ _ _ (by decide)
    · rw [lookupA_append_right]
      · exact lookupA_optEntry_ne _ _ _ (by decide)
      · rfl

theorem fieldSDict_explode (conv : MField → List (String × JValue))
    (field : MField) (hnd : (keysOf (conv field)).Nodup) :
    lookupA (fieldSDict conv field) sw.explode = none := by
  unfold fieldSDict
  rw [popKey_snd_lookup_ne _ sw.style sw.explode (by decide)]
  rw [popKey_snd_lookup_ne _ sw.description sw.explode (by decide)]
  exact popKey_snd_lookup_self _ _ hnd

theorem fieldSDict_description (conv : MField → List (String × JValue))
    (field : MField) (hnd : (keysOf (conv field)).Nodup) :
    lookupA (fieldSDict conv field) sw.description = none := by
  unfold fieldSDict
  rw [popKey_snd_lookup_ne _ sw.style sw.description (by decide)]
  exact popKey_snd_lookup_self _ _ (popKey_snd_nodup _ _ hnd)

theorem fieldSDict_style (conv : MField → List (String × JValue))
    (field : MField) (hnd : (keysOf (conv field)).Nodup) :
    lookupA (fieldSDict conv field) sw.style = none := by
  unfold fieldSDict
  exact popKey_snd_lookup_self _ _
    (popKey_snd_nodup _ _ (popKey_snd_nodup _ _ hnd))

theorem fieldSDict_other (conv : MField → List (String × JValue))
    (field : MField) (k : String) (h1 : k ≠ sw.explode)
    (h2 : k ≠ sw.description) (h3 : k ≠ sw.style) :
    lookupA (fieldSDict conv field) k = lookupA (conv field) k := by
  unfold fieldSDict
  rw [popKey_snd_lookup_ne _ sw.style k h3,
    popKey_snd_lookup_ne _ sw.description k h2,
    popKey_snd_lookup_ne _ sw.explode k h1]

/-! ### Lemmas about the security block -/

theorem operationSecurity_nil (ds : Option (List JValue)) :
    operationSecurity ds [] = [(sw.security, .jarr [])] := by
  simp [operationSecurity]

theorem operationSecurity_concrete (ds : List JValue)
    (auths : List AuthEntry) (h2 : auths.any AuthEntry.isConcrete = true) :
    operationSecurity (some ds) auths =
      [(sw.security, .jarr (auths.flatMap (fun e =>
        match e with
        | .auth a => a.securityRequirements
        | .useDefault => ds)))] := by
  have hne : ¬(auths.isEmpty = true) := by
    cases auths with
    | nil => simp at h2
    | cons a rest => simp
  simp only [operationSecurity, if_neg hne, if_pos h2]

theorem operationSecurity_all_default (ds : Option (List JValue))
    (auths : List AuthEntry) (hne : auths ≠ [])
    (h2 : auths.any AuthEntry.isConcrete = false) :
    operationSecurity ds auths = [] := by
  have hne2 : ¬(auths.isEmpty = true) := by
    cases auths with
    | nil => exact absurd rfl hne
    | cons a rest => simp
  simp only [operationSecurity, if_neg hne2, h2]
  simp

/-! ### Lemmas about the paths loop -/

theorem processPath_skip (g : Generator) (dhs : Option MSchema)
    (ds : Option (List JValue)) (acc : List (String × List (String × JValue)))
    (path : RawPath) (methods : List (String × PathDefinition))
    (hg : g.include_hidden = false)
    (hall : methods.all (fun md => md.2.hidden) = true) :
    processPath g dhs ds acc path methods = pure acc := by
  unfold processPath
  rw [hg, hall]
  rfl

theorem getPathsAux_skip_insert (g : Generator) (dhs : Option MSchema)
    (ds : Option (List JValue)) (p : RawPath)
    (ms : List (String × PathDefinition))
    (hg : g.include_hidden = false)
    (hall : ms.all (fun md => md.2.hidden) = true) :
    ∀ (before after : List (RawPath × List (String × PathDefinition)))
      (acc : List (String × List (String × JValue))),
      getPathsAux g dhs ds acc (before ++ (p, ms) :: after) =
        getPathsAux g dhs ds acc (before ++ after) := by
  intro before
  induction before with
  | nil =>
    intro after acc
    rw [List.nil_append, List.nil_append, getPathsAux,
      processPath_skip g dhs ds acc p ms hg hall]
    rfl
  | cons q rest ih =>
    intro after acc
    rw [List.cons_append, List.cons_append, getPathsAux, getPathsAux]
    cases hq : processPath g dhs ds acc q.1 q.2
    · rfl
    · exact ih after _

theorem methodsFold_remove_hidden (g : Generator) (dhs : Option MSchema)
    (ds : Option (List JValue)) (m1 m2 : List (String × PathDefinition))
    (meth : String) (d : PathDefinition)
    (hg : g.include_hidden = false) (hd : d.hidden = true) :
    ∀ pd, methodsFold g dhs ds (m1 ++ (meth, d) :: m2) pd =
      methodsFold g dhs ds (m1 ++ m2) pd := by
  induction m1 with
  | nil =>
    intro pd
    rw [List.nil_append, List.nil_append, methodsFold]
    rw [hg, hd]
    rfl
  | cons q rest ih =>
    intro pd
    rw [List.cons_append, List.cons_append, methodsFold, methodsFold]
    exact ih _

theorem processPath_remove_hidden (g : Generator) (dhs : Option MSchema)
    (ds : Option (List JValue)) (acc : List (String × List (String × JValue)))
    (p : RawPath) (m1 m2 : List (String × PathDefinition))
    (meth : String) (d : PathDefinition)
    (hg : g.include_hidden = false) (hd : d.hidden = true) :
    processPath g dhs ds acc p (m1 ++ (meth, d) :: m2) =
      processPath g dhs ds acc p (m1 ++ m2) := by
  unfold processPath
  have hall : ((m1 ++ (meth, d) :: m2).all (fun md => md.2.hidden)) =
      ((m1 ++ m2).all (fun md => md.2.hidden)) := by
    simp [List.all_append, hd]
  rw [hall]
  simp only [methodsFold_remove_hidden g dhs ds m1 m2 meth d hg hd]

theorem getPathsAux_remove_hidden (g : Generator) (dhs : Option MSchema)
    (ds : Option (List JValue)) (p : RawPath)
    (m1 m2 : List (String × PathDefinition)) (meth : String)
    (d : PathDefinition) (hg : g.include_hidden = false)
    (hd : d.hidden = true) :
    ∀ (before after : List (RawPath × List (String × PathDefinition)))
      (acc : List (String × List (String × JValue))),
      getPathsAux g dhs ds acc (before ++ (p, m1 ++ (meth, d) :: m2) :: after) =
        getPathsAux g dhs ds acc (before ++ (p, m1 ++ m2) :: after) := by
  intro before
  induction before with
  | nil =>
    intro after acc
    rw [List.nil_append, List.nil_append, getPathsAux, getPathsAux]
    rw [show (p, m1 ++ (meth, d) :: m2).2 = m1 ++ (meth, d) :: m2 from rfl]
    rw [processPath_remove_hidden g dhs ds acc p m1 m2 meth d hg hd]
  | cons q rest ih =>
    intro after acc
    rw [List.cons_append, List.cons_append, getPathsAux, getPathsAux]
    cases hq : processPath g dhs ds acc q.1 q.2
    · rfl
    · exact ih after _

/-- Overriding the hidden flag of a path definition. -/
def setHidden (d : PathDefinition) (b : Bool) : PathDefinition :=
  { d with hidden := b }

theorem buildOperation_setHidden (g : Generator) (dhs : Option MSchema)
    (ds : Option (List JValue)) (d : PathDefinition) (b : Bool) :
    buildOperation g dhs ds (setHidden d b) = buildOperation g dhs ds d := rfl

theorem methodsFold_setHidden (g : Generator) (dhs : Option MSchema)
    (ds : Option (List JValue)) (m1 m2 : List (String × PathDefinition))
    (meth : String) (d : PathDefinition) (b : Bool)
    (hg : g.include_hidden = true) :
    ∀ pd, methodsFold g dhs ds (m1 ++ (meth, setHidden d b) :: m2) pd =
      methodsFold g dhs ds (m1 ++ (meth, d) :: m2) pd := by
  induction m1 with
  | nil =>
    intro pd
    rw [List.nil_append, List.nil_append, methodsFold, methodsFold]
    rw [hg]
    rfl
  | cons q rest ih =>
    intro pd
    rw [List.cons_append, List.cons_append, methodsFold, methodsFold]
    exact ih _

theorem processPath_setHidden (g : Generator) (dhs : Option MSchema)
    (ds : Option (List JValue)) (acc : List (String × List (String × JValue)))
    (p : RawPath) (m1 m2 : List (String × PathDefinition)) (meth : String)
    (d : PathDefinition) (b : Bool) (hg : g.include_hidden = true) :
    processPath g dhs ds acc p (m1 ++ (meth, setHidden d b) :: m2) =
      processPath g dhs ds acc p (m1 ++ (meth, d) :: m2) := by
  unfold processPath
  rw [hg]
  simp only [Bool.not_true, Bool.false_and, Bool.false_eq_true, if_false,
    methodsFold_setHidden g dhs ds m1 m2 meth d b hg]

theorem getPathsAux_setHidden (g : Generator) (dhs : Option MSchema)
    (ds : Option (List JValue)) (p : RawPath)
    (m1 m2 : List (String × PathDefinition)) (meth : String)
    (d : PathDefinition) (b : Bool) (hg : g.include_hidden = true) :
    ∀ (before after : List (RawPath × List (String × PathDefinition)))
      (acc : List (String × List (String × JValue))),
      getPathsAux g dhs ds acc
          (before ++ (p, m1 ++ (meth, setHidden d b) :: m2) :: after) =
        getPathsAux g dhs ds acc
          (before ++ (p, m1 ++ (meth, d) :: m2) :: after) := by
  intro before
  induction before with
  | nil =>
    intro after acc
    rw [List.nil_append, List.nil_append, getPathsAux, getPathsAux]
    rw [show (p, m1 ++ (meth, setHidden d b) :: m2).2 =
      m1 ++ (meth, setHidden d b) :: m2 from rfl]
    rw [processPath_setHidden g dhs ds acc p m1 m2 meth d b hg]
  | cons q rest ih =>
    intro after acc
    rw [List.cons_append, List.cons_append, getPathsAux, getPathsAux]
    cases hq : processPath g dhs ds acc q.1 q.2
    · rfl
    · exact ih after _

theorem methodsFold_isSome (g : Generator) (dhs : Option MSchema)
    (ds : Option (List JValue)) (k : String) :
    ∀ (ms : List (String × PathDefinition)) (pd : List (String × JValue)),
      (lookupA pd k).isSome →
      (lookupA (methodsFold g dhs ds ms pd) k).isSome := by
  intro ms
  induction ms with
  | nil => intro pd h; exact h
  | cons md rest ih =>
    intro pd h
    rw [methodsFold]
    apply ih
    by_cases hc : (!g.include_hidden && md.2.hidden) = true
    · rw [if_pos hc]; exact h
    · rw [if_neg hc]; exact lookupA_insertAssoc_isSome _ _ _ _ h

theorem methodsFold_mem_isSome (g : Generator) (dhs : Option MSchema)
    (ds : Option (List JValue)) (meth : String) (d : PathDefinition)
    (hg : g.include_hidden = true) :
    ∀ (ms : List (String × PathDefinition)) (pd : List (String × JValue)),
      (meth, d) ∈ ms →
      (lookupA (methodsFold g dhs ds ms pd) meth.toLower).isSome := by
  intro ms
  induction ms with
  | nil => intro pd h; cases h
  | cons md rest ih =>
    intro pd hmem
    rw [methodsFold]
    rcases List.mem_cons.mp hmem with h | h
    · subst h
      apply methodsFold_isSome
      rw [hg]
      simp only [Bool.not_true, Bool.false_and, Bool.false_eq_true, if_false]
      rw [lookupA_insertAssoc_self]
      rfl
    · exact ih _ h

theorem buildPathParams_isSome (pd0 : List (String × JValue)) (sp : String)
    (args : List PathArg) (pd1 : List (String × JValue)) (k : String)
    (h : buildPathParams pd0 sp args = .ok pd1)
    (hk : (lookupA pd0 k).isSome) : (lookupA pd1 k).isSome := by
  unfold buildPathParams at h
  by_cases he : args.isEmpty
  · rw [if_pos he] at h
    rw [← Except.ok.inj h]
    exact hk
  · rw [if_neg he] at h
    split at h
    · cases h
    · split at h
      · split at h
        · cases h
        · rw [← Except.ok.inj h]
          exact lookupA_insertAssoc_isSome _ _ _ _ hk
      · rw [← Except.ok.inj h]
        exact lookupA_insertAssoc_isSome _ _ _ _ hk

theorem processPath_ok_structure (g : Generator) (dhs : Option MSchema)
    (ds : Option (List JValue)) (acc : List (String × List (String × JValue)))
    (p : RawPath) (ms : List (String × PathDefinition))
    (acc1 : List (String × List (String × JValue)))
    (hg : g.include_hidden = true)
    (hp : processPath g dhs ds acc p ms = .ok acc1) :
    ∃ pd1, buildPathParams ((lookupA acc (formatPathForSwagger p).1).getD [])
        (formatPathForSwagger p).1 (formatPathForSwagger p).2 = .ok pd1 ∧
      acc1 = insertAssoc acc (formatPathForSwagger p).1
        (methodsFold g dhs ds ms pd1) := by
  unfold processPath at hp
  rw [hg] at hp
  simp only [Bool.not_true, Bool.false_and, Bool.false_eq_true, if_false] at hp
  cases hbp : buildPathParams ((lookupA acc (formatPathForSwagger p).1).getD [])
      (formatPathForSwagger p).1 (formatPathForSwagger p).2 with
  | error e => rw [hbp] at hp; cases hp
  | ok pd1 =>
    rw [hbp] at hp
    exact ⟨pd1, rfl, (Except.ok.inj hp).symm⟩

theorem processPath_preserves (g : Generator) (dhs : Option MSchema)
    (ds : Option (List JValue)) (acc : List (String × List (String × JValue)))
    (p : RawPath) (ms : List (String × PathDefinition))
    (acc1 : List (String × List (String × JValue))) (sp k : String)
    (hp : processPath g dhs ds acc p ms = .ok acc1)
    (pd : List (String × JValue))
    (hsp : lookupA acc sp = some pd) (hk : (lookupA pd k).isSome) :
    ∃ pd2, lookupA acc1 sp = some pd2 ∧ (lookupA pd2 k).isSome := by
  unfold processPath at hp
  by_cases hskip : (!g.include_hidden && ms.all (fun md => md.2.hidden)) = true
  · rw [if_pos hskip] at hp
    exact ⟨pd, (Except.ok.inj hp) ▸ hsp, hk⟩
  · rw [if_neg hskip] at hp
    cases hbp : buildPathParams ((lookupA acc (formatPathForSwagger p).1).getD [])
        (formatPathForSwagger p).1 (formatPathForSwagger p).2 with
    | error e => rw [hbp] at hp; cases hp
    | ok pd1 =>
      rw [hbp] at hp
      have hacc1 := (Except.ok.inj hp).symm
      by_cases hsame : (formatPathForSwagger p).1 = sp
      · subst hsame
        have hpd0 : (lookupA acc (formatPathForSwagger p).1).getD [] = pd := by
          rw [hsp]
          rfl
        have h1 : (lookupA pd1 k).isSome :=
          buildPathParams_isSome _ _ _ _ _ (hpd0 ▸ hbp) hk
        refine ⟨methodsFold g dhs ds ms pd1, ?_,
          methodsFold_isSome g dhs ds k ms pd1 h1⟩
        rw [hacc1, lookupA_insertAssoc_self]
      · refine ⟨pd, ?_, hk⟩
        rw [hacc1, lookupA_insertAssoc_ne _ _ _ _ (fun e => hsame e.symm)]
        exact hsp

theorem getPathsAux_preserves (g : Generator) (dhs : Option MSchema)
    (ds : Option (List JValue)) (sp k : String) :
    ∀ (paths : List (RawPath × List (String × PathDefinition)))
      (acc res : List (String × List (String × JValue))),
      getPathsAux g dhs ds acc paths = .ok res →
      ∀ pd, lookupA acc sp = some pd → (lookupA pd k).isSome →
      ∃ pd2, lookupA res sp = some pd2 ∧ (lookupA pd2 k).isSome := by
  intro paths
  induction paths with
  | nil =>
    intro acc res h pd hsp hk
    exact ⟨pd, (Except.ok.inj h) ▸ hsp, hk⟩
  | cons pm rest ih =>
    intro acc res h pd hsp hk
    rw [getPathsAux] at h
    cases hp : processPath g dhs ds acc pm.1 pm.2 with
    | error e => rw [hp] at h; cases h
    | ok acc1 =>
      rw [hp] at h
      obtain ⟨pd2, h2, hk2⟩ :=
        processPath_preserves g dhs ds acc pm.1 pm.2 acc1 sp k hp pd hsp hk
      exact ih acc1 res h pd2 h2 hk2

theorem getPathsAux_presence (g : Generator) (dhs : Option MSchema)
    (ds : Option (List JValue)) (hg : g.include_hidden = true)
    (p : RawPath) (ms : List (String × PathDefinition)) (meth : String)
    (d : PathDefinition) (hmem2 : (meth, d) ∈ ms) :
    ∀ (paths : List (RawPath × List (String × PathDefinition)))
      (acc res : List (String × List (String × JValue))),
      getPathsAux g dhs ds acc paths = .ok res →
      (p, ms) ∈ paths →
      ∃ pd, lookupA res (formatPathForSwagger p).1 = some pd ∧
        (lookupA pd meth.toLower).isSome := by
  intro paths
  induction paths with
  | nil => intro acc res h hmem; cases hmem
  | cons pm rest ih =>
    intro acc res h hmem
    rw [getPathsAux] at h
    cases hp : processPath g dhs ds acc pm.1 pm.2 with
    | error e => rw [hp] at h; cases h
    | ok acc1 =>
      rw [hp] at h
      rcases List.mem_cons.mp hmem with heq | hmem'
      · subst heq
        obtain ⟨pd1, hbp, hacc1⟩ :=
          processPath_ok_structure g dhs ds acc p ms acc1 hg hp
        have hsp : lookupA acc1 (formatPathForSwagger p).1 =
            some (methodsFold g dhs ds ms pd1) := by
          rw [hacc1, lookupA_insertAssoc_self]
        exact getPathsAux_preserves g dhs ds _ _ rest acc1 res h _ hsp
          (methodsFold_mem_isSome g dhs ds meth d hg ms pd1 hmem2)
      · exact ih acc1 res h hmem'

/-! ### Error propagation lemmas -/

theorem mapM_pathArgToParameter_error (args : List PathArg) (arg : PathArg)
    (hmem : arg ∈ args)
    (hbad : lookupA flaskConvertersToSwaggerTypes arg.type = none) :
    ∃ e, args.mapM pathArgToParameter = Except.error e := by
  induction args with
  | nil => cases hmem
  | cons a rest ih =>
    rw [List.mapM_cons]
    rcases List.mem_cons.mp hmem with h | h
    · subst h
      refine ⟨.unknownConverter arg.type, ?_⟩
      have hfa : pathArgToParameter arg =
          Except.error (.unknownConverter arg.type) := by
        unfold pathArgToParameter
        rw [hbad]
        rfl
      rw [hfa]
      rfl
    · cases hfa : pathArgToParameter a with
      | error e => exact ⟨e, rfl⟩
      | ok b =>
        obtain ⟨e, he⟩ := ih h
        refine ⟨e, ?_⟩
        show (rest.mapM pathArgToParameter >>= fun bs => pure (b :: bs)) =
          Except.error e
        rw [he]
        rfl

theorem mapM_ok_of_all {α β : Type} (f : α → Except GenError β) :
    ∀ (l : List α), (∀ a ∈ l, ∃ b, f a = .ok b) →
      ∃ ys, l.mapM f = .ok ys := by
  intro l
  induction l with
  | nil => intro _; exact ⟨[], rfl⟩
  | cons a rest ih =>
    intro h
    obtain ⟨b, hb⟩ := h a (List.mem_cons_self a rest)
    obtain ⟨ys, hys⟩ := ih (fun x hx => h x (List.mem_cons_of_mem a hx))
    refine ⟨b :: ys, ?_⟩
    rw [List.mapM_cons, hb]
    show (rest.mapM f >>= fun bs => pure (b :: bs)) = Except.ok (b :: ys)
    rw [hys]
    rfl

theorem mapM_ok_mem {α β : Type} (f : α → Except GenError β) :
    ∀ (l : List α) (ys : List β), l.mapM f = .ok ys →
      ∀ a ∈ l, ∀ b, f a = .ok b → b ∈ ys := by
  intro l
  induction l with
  | nil => intro ys _ a ha; cases ha
  | cons x rest ih =>
    intro ys h a ha b hb
    rw [List.mapM_cons] at h
    cases hfx : f x with
    | error e =>
      rw [hfx] at h
      cases h
    | ok b0 =>
      rw [hfx] at h
      replace h : (rest.mapM f >>= fun bs => pure (b0 :: bs)) = Except.ok ys := h
      cases hrest : rest.mapM f with
      | error e => rw [hrest] at h; cases h
      | ok ys0 =>
        rw [hrest] at h
        have hys : b0 :: ys0 = ys := Except.ok.inj h
        rcases List.mem_cons.mp ha with hax | hax
        · subst hax
          have : b = b0 := by
            rw [hfx] at hb
            exact (Except.ok.inj hb).symm
          rw [this, ← hys]
          exact List.mem_cons_self b0 ys0
        · rw [← hys]
          exact List.mem_cons_of_mem b0 (ih ys0 hrest a hax b hb)

theorem paramName_pathParamObj (arg : PathArg) (ty : String) :
    paramName (pathParamObj arg ty) = some arg.name := rfl

theorem paramTypeName_pathParamObj (arg : PathArg) (ty : String) :
    paramTypeName (pathParamObj arg ty) = some ty := rfl

theorem parametersConflict_of_mem (prms1 prms2 : List JValue) (p1 p2 : JValue)
    (h1 : p1 ∈ prms1) (h2 : p2 ∈ prms2)
    (hn : paramName p1 = paramName p2)
    (ht : paramTypeName p1 ≠ paramTypeName p2) :
    parametersConflict prms1 prms2 = true := by
  unfold parametersConflict
  rw [List.any_eq_true]
  refine ⟨p1, h1, ?_⟩
  rw [List.any_eq_true]
  exact ⟨p2, h2, by simp [hn, ht]⟩

theorem buildPathParams_error_of_bad_arg (pd0 : List (String × JValue))
    (sp : String) (args : List PathArg) (arg : PathArg) (hmem : arg ∈ args)
    (hbad : lookupA flaskConvertersToSwaggerTypes arg.type = none) :
    ∃ e, buildPathParams pd0 sp args = .error e := by
  have hne : ¬(args.isEmpty = true) := by
    cases args with
    | nil => cases hmem
    | cons a rest => simp
  unfold buildPathParams
  rw [if_neg hne]
  obtain ⟨e, he⟩ := mapM_pathArgToParameter_error args arg hmem hbad
  rw [he]
  exact ⟨e, rfl⟩

theorem processPath_error_of_bad_arg (g : Generator) (dhs : Option MSchema)
    (ds : Option (List JValue)) (acc : List (String × List (String × JValue)))
    (p : RawPath) (ms : List (String × PathDefinition)) (arg : PathArg)
    (hvis : (!g.include_hidden && ms.all (fun md => md.2.hidden)) = false)
    (hmem : arg ∈ (formatPathForSwagger p).2)
    (hbad : lookupA flaskConvertersToSwaggerTypes arg.type = none) :
    ∃ e, processPath g dhs ds acc p ms = .error e := by
  unfold processPath
  rw [if_neg (by rw [hvis]; exact Bool.false_ne_true)]
  obtain ⟨e, he⟩ := buildPathParams_error_of_bad_arg
    ((lookupA acc (formatPathForSwagger p).1).getD [])
    (formatPathForSwagger p).1 (formatPathForSwagger p).2 arg hmem hbad
  rw [he]
  exact ⟨e, rfl⟩

theorem getPathsAux_error_of_bad_arg (g : Generator) (dhs : Option MSchema)
    (ds : Option (List JValue)) (p : RawPath)
    (ms : List (String × PathDefinition)) (arg : PathArg)
    (hvis : (!g.include_hidden && ms.all (fun md => md.2.hidden)) = false)
    (hmem : arg ∈ (formatPathForSwagger p).2)
    (hbad : lookupA flaskConvertersToSwaggerTypes arg.type = none) :
    ∀ (paths : List (RawPath × List (String × PathDefinition)))
      (acc : List (String × List (String × JValue))),
      (p, ms) ∈ paths → ∃ e, getPathsAux g dhs ds acc paths = .error e := by
  intro paths
  induction paths with
  | nil => intro acc h; cases h
  | cons pm rest ih =>
    intro acc hmem1
    rw [getPathsAux]
    rcases List.mem_cons.mp hmem1 with heq | hmem'
    · subst heq
      obtain ⟨e, he⟩ := processPath_error_of_bad_arg g dhs ds acc p ms arg
        hvis hmem hbad
      rw [he]
      exact ⟨e, rfl⟩
    · cases hp : processPath g dhs ds acc pm.1 pm.2 with
      | error e => exact ⟨e, rfl⟩
      | ok acc1 => exact ih acc1 hmem'

/-- Whether an `Except` result is a success. -/
def isOkE {α : Type} : Except GenError α → Bool
  | .ok _ => true
  | .error _ => false

theorem methodsFold_lookup_skip (g : Generator) (dhs : Option MSchema)
    (ds : Option (List JValue)) (k : String) :
    ∀ (ms : List (String × PathDefinition)) (pd : List (String × JValue)),
      (∀ md ∈ ms, md.1.toLower ≠ k) →
      lookupA (methodsFold g dhs ds ms pd) k = lookupA pd k := by
  intro ms
  induction ms with
  | nil => intro pd _; rfl
  | cons md rest ih =>
    intro pd h
    rw [methodsFold]
    rw [ih _ (fun q hq => h q (List.mem_cons_of_mem md hq))]
    by_cases hc : (!g.include_hidden && md.2.hidden) = true
    · rw [if_pos hc]
    · rw [if_neg hc]
      exact lookupA_insertAssoc_ne _ _ _ _
        (fun e => h md (List.mem_cons_self md rest) e.symm)

theorem getPathsAux_cons (g : Generator) (dhs : Option MSchema)
    (ds : Option (List JValue)) (acc : List (String × List (String × JValue)))
    (p : RawPath) (ms : List (String × PathDefinition))
    (rest : List (RawPath × List (String × PathDefinition))) :
    getPathsAux g dhs ds acc ((p, ms) :: rest) =
      match processPath g dhs ds acc p ms with
      | .error e => .error e
      | .ok acc1 => getPathsAux g dhs ds acc1 rest := rfl

theorem generate_components_ok (g : Generator) (r : HandlerRegistry)
    (host : Option String) (sk : Bool) (comps : List (String × JValue))
    (hc : getComponents g r = .ok comps) :
    generate g r host sk =
      match getPaths g r.paths r.default_headers_schema
          (some (r.default_authenticators.flatMap
            (fun a => a.securityRequirements))) with
      | .error e => .error e
      | .ok paths =>
          .ok (if sk then
              sortJson (assembleSwagger g comps paths
                (r.default_authenticators.flatMap
                  (fun a => a.securityRequirements)) host)
            else
              assembleSwagger g comps paths
                (r.default_authenticators.flatMap
                  (fun a => a.securityRequirements)) host) := by
  unfold generate
  rw [hc]

/-! ### Concrete fixtures used by witnesses and counterexamples -/

/-- A concrete field converter: a string type with an explode hint. -/
def convW : MField → List (String × JValue) :=
  fun _ => [(sw.type_, .jstr "string"), (sw.explode, .jbool true)]

/-- A concrete schema converter. -/
def schemaConvW : MSchema → JValue := fun _ => .jobj [(sw.type_, .jstr "object")]

def errorSchemaW : MSchema := ⟨"Error", "the error schema", []⟩

def widgetSchemaW : MSchema := ⟨"Widget", "a widget", []⟩

def qSchemaW : MSchema := ⟨"Q", "query schema", [("verbose", ⟨false⟩)]⟩

/-- A concrete generator with `include_hidden = false`. -/
def gW : Generator :=
  { query_string_converter := convW, headers_converter := convW,
    schema_converter := schemaConvW, default_response_schema := errorSchemaW }

/-- The same generator with `include_hidden = true`. -/
def gWT : Generator := { gW with include_hidden := true }

/-- A concrete visible endpoint definition. -/
def dW : PathDefinition :=
  { func_doc := none, func_title := "get_widget", endpoint := some "getWidget",
    response_body_schema := [(200, some widgetSchemaW), (204, none)],
    query_string_schema := some qSchemaW, headers_schema := .explicit none,
    request_body_schema := some widgetSchemaW, authenticators := [],
    hidden := false, tags := [], summary := none }

/-- The same endpoint marked hidden. -/
def dHW : PathDefinition := { dW with hidden := true }

def dNoBodyW : PathDefinition := { dW with request_body_schema := none }

def authW : Authenticator :=
  ⟨1, [("sharedSecret", .jobj [(sw.type_, .jstr "apiKey")])],
   [.jobj [("sharedSecret", .jarr [])]]⟩

def dsW : List JValue := [.jobj [("defaultAuth", .jarr [])]]

def dConcreteW : PathDefinition :=
  { dW with authenticators := [.useDefault, .auth authW] }

def dAllDefaultW : PathDefinition := { dW with authenticators := [.useDefault] }

def pW : RawPath := [.lit "widgets", .param "id" "int"]

def rW : HandlerRegistry :=
  { paths := [(pW, [("GET", dW)])], default_headers_schema := none,
    default_authenticators := [] }

/-- The document generated for the concrete registry. -/
def docW : JValue :=
  match generate gW rW none true with
  | .ok d => d
  | .error _ => .jnull

/-! ### The claims -/

/-- Claim C2: for every registry, `generate` is deterministic and
side-effect-free — two calls on the same unchanged registry with
`sort_keys = true` return equal documents — and with `sort_keys = true`
the keys of every object in the returned document are in lexicographic
order at every nesting level.  (Side-effect freedom is inherent in the
embedding: `generate` is a pure function of the registry.) -/
theorem claim_c2_thm (g : Generator) (r : HandlerRegistry)
    (host : Option String) :
    generate g r host true = generate g r host true ∧
    (∀ doc, generate g r host true = .ok doc → keysSortedB doc = true) := by
  refine ⟨rfl, ?_⟩
  intro doc h
  cases hc : getComponents g r with
  | error e =>
    unfold generate at h
    rw [hc] at h
    cases h
  | ok comps =>
    rw [generate_components_ok g r host true comps hc] at h
    cases hp : getPaths g r.paths r.default_headers_schema
        (some (r.default_authenticators.flatMap
          (fun a => a.securityRequirements))) with
    | error e => rw [hp] at h; cases h
    | ok paths =>
      rw [hp] at h
      rw [← Except.ok.inj h]
      show keysSortedB (sortJson (assembleSwagger g comps paths
        (r.default_authenticators.flatMap (fun a => a.securityRequirements))
        host)) = true
      exact sortJson_sorted _

theorem claim_c2_witness : keysSortedB docW = true :=
  (claim_c2_thm gW rW none).2 docW rfl

/-- Claim C3: every emitted operation's responses object contains a
`default` entry built from the configured default response schema — even
when the endpoint declares no `response_body_schema` at all, since the
entry is present for every definition — and every declared status-code
response is added alongside it. -/
theorem claim_c3_thm (g : Generator) (dhs : Option MSchema)
    (ds : Option (List JValue)) (d : PathDefinition) :
    lookupA (buildOperation g dhs ds d) sw.responses =
      some (.jobj (buildResponses g d.response_body_schema)) ∧
    lookupA (buildResponses g d.response_body_schema) sw.default =
      some (getResponseDefinition g.default_response_schema) ∧
    ∀ p ∈ d.response_body_schema,
      (lookupA (buildResponses g d.response_body_schema)
        (natToStr p.1)).isSome = true :=
  ⟨buildOperation_responses g dhs ds d,
   buildResponses_default g d.response_body_schema,
   fun p hp => buildResponses_mem_isSome g d.response_body_schema p hp⟩

theorem claim_c3_witness :
    lookupA (buildOperation gW none none dW) sw.responses =
      some (.jobj (buildResponses gW dW.response_body_schema)) ∧
    (lookupA (buildResponses gW dW.response_body_schema)
      (natToStr 200)).isSome = true :=
  ⟨(claim_c3_thm gW none none dW).1,
   (claim_c3_thm gW none none dW).2.2 (200, some widgetSchemaW) (by decide)⟩

/-- Claim C4: a status code mapped to the explicit no-body value renders
as a body-absent description with no content or schema reference, while a
status code absent from `response_body_schema` produces no entry at all —
the two cases are distinguishable (`some` versus `none`). -/
theorem claim_c4_thm (g : Generator) (rbs : List (Nat × Option MSchema))
    (sc : Nat) (hnd : (rbs.map Prod.fst).Nodup) :
    ((sc, none) ∈ rbs →
      lookupA (buildResponses g rbs) (natToStr sc) =
        some (.jobj [(sw.description, .jstr "No response body.")])) ∧
    (sc ∉ rbs.map Prod.fst →
      lookupA (buildResponses g rbs) (natToStr sc) = none) := by
  constructor
  · intro hmem
    exact responsesFold_explicit rbs
      [(sw.default, getResponseDefinition g.default_response_schema)]
      sc none hnd hmem
  · intro hnot
    exact buildResponses_unmapped g rbs sc hnot

theorem claim_c4_witness :
    lookupA (buildResponses gW [(200, some widgetSchemaW), (204, none)])
      (natToStr 204) =
      some (.jobj [(sw.description, .jstr "No response body.")]) ∧
    lookupA (buildResponses gW [(200, some widgetSchemaW), (204, none)])
      (natToStr 500) = none :=
  ⟨(claim_c4_thm gW [(200, some widgetSchemaW), (204, none)] 204
      (by decide)).1 (by decide),
   (claim_c4_thm gW [(200, some widgetSchemaW), (204, none)] 500
      (by decide)).2 (by decide)⟩

/-- Claim C5: an endpoint with zero authenticators carries an explicit
empty security list; with at least one concrete authenticator the
operation carries the requirements of every concrete authenticator plus
the default security substituted for each `USE_DEFAULT` sentinel; when
every declared authenticator is the sentinel, no security key is emitted
at all (the operation inherits the document default). -/
theorem claim_c5_thm (g : Generator) (dhs : Option MSchema)
    (ds : List JValue) (d : PathDefinition) :
    (d.authenticators = [] →
      lookupA (buildOperation g dhs (some ds) d) sw.security =
        some (.jarr [])) ∧
    (d.authenticators.any AuthEntry.isConcrete = true →
      lookupA (buildOperation g dhs (some ds) d) sw.security =
        some (.jarr (d.authenticators.flatMap (fun e =>
          match e with
          | .auth a => a.securityRequirements
          | .useDefault => ds)))) ∧
    (d.authenticators ≠ [] →
      d.authenticators.any AuthEntry.isConcrete = false →
      lookupA (buildOperation g dhs (some ds) d) sw.security = none) := by
  refine ⟨?_, ?_, ?_⟩
  · intro h
    rw [buildOperation_security, h, operationSecurity_nil]
    rfl
  · intro h
    rw [buildOperation_security, operationSecurity_concrete ds _ h]
    rfl
  · intro hne h
    rw [buildOperation_security,
      operationSecurity_all_default (some ds) _ hne h]
    rfl

theorem claim_c5_witness :
    lookupA (buildOperation gW none (some dsW) dW) sw.security =
      some (.jarr []) ∧
    lookupA (buildOperation gW none (some dsW) dConcreteW) sw.security =
      some (.jarr (dConcreteW.authenticators.flatMap (fun e =>
        match e with
        | .auth a => a.securityRequirements
        | .useDefault => dsW))) ∧
    lookupA (buildOperation gW none (some dsW) dAllDefaultW) sw.security =
      none :=
  ⟨(claim_c5_thm gW none dsW dW).1 rfl,
   (claim_c5_thm gW none dsW dConcreteW).2.1 rfl,
   (claim_c5_thm gW none dsW dAllDefaultW).2.2 (by simp [dAllDefaultW]) rfl⟩

/-- Claim C8: every top-level field of a query-string or headers schema
flattens to a parameter carrying the explode, description and style hints
at the parameter's own top level with exactly the (non-null) values the
field converter produced; a hint the converter did not produce — or
produced as null, which the source's `is not None` guards treat the same
way — is omitted from the parameter entirely, never emitted as a null or
default value; the hints are removed from the nested schema descriptor,
every other converter key is kept in it, and the parameter's required
flag equals the field's required-ness. -/
theorem claim_c8_thm (conv : MField → List (String × JValue)) (in_ : String)
    (prop : String) (field : MField)
    (hnd : (keysOf (conv field)).Nodup) :
    fieldToParameter conv in_ prop field =
      .jobj (fieldParamList conv in_ prop field) ∧
    (∀ schema : MSchema, (prop, field) ∈ schema.fields →
      JValue.jobj (fieldParamList conv in_ prop field) ∈
        convertSchemaToListOfParameters conv in_ schema) ∧
    lookupA (fieldParamList conv in_ prop field) sw.name =
      some (.jstr prop) ∧
    lookupA (fieldParamList conv in_ prop field) sw.in_ =
      some (.jstr in_) ∧
    lookupA (fieldParamList conv in_ prop field) sw.required =
      some (.jbool field.required) ∧
    lookupA (fieldParamList conv in_ prop field) sw.schema =
      some (.jobj (fieldSDict conv field)) ∧
    lookupA (fieldParamList conv in_ prop field) sw.explode =
      hintValue (lookupA (conv field) sw.explode) ∧
    lookupA (fieldParamList conv in_ prop field) sw.description =
      hintValue (lookupA (conv field) sw.description) ∧
    lookupA (fieldParamList conv in_ prop field) sw.style =
      hintValue (lookupA (conv field) sw.style) ∧
    lookupA (fieldParamList conv in_ prop field) sw.explode ≠
      some JValue.jnull ∧
    lookupA (fieldParamList conv in_ prop field) sw.description ≠
      some JValue.jnull ∧
    lookupA (fieldParamList conv in_ prop field) sw.style ≠
      some JValue.jnull ∧
    lookupA (fieldSDict conv field) sw.explode = none ∧
    lookupA (fieldSDict conv field) sw.description = none ∧
    lookupA (fieldSDict conv field) sw.style = none ∧
    (∀ k, k ≠ sw.explode → k ≠ sw.description → k ≠ sw.style →
      lookupA (fieldSDict conv field) k = lookupA (conv field) k) := by
  refine ⟨fieldToParameter_unfold conv in_ prop field, ?_,
    fieldParamList_name conv in_ prop field,
    fieldParamList_in conv in_ prop field,
    fieldParamList_required conv in_ prop field,
    fieldParamList_schema conv in_ prop field,
    fieldParamList_explode conv in_ prop field,
    fieldParamList_description conv in_ prop field,
    fieldParamList_style conv in_ prop field,
    ?_, ?_, ?_,
    fieldSDict_explode conv field hnd,
    fieldSDict_description conv field hnd,
    fieldSDict_style conv field hnd,
    fieldSDict_other conv field⟩
  · intro schema hmem
    rw [← fieldToParameter_unfold conv in_ prop field]
    unfold convertSchemaToListOfParameters
    exact List.mem_map_of_mem _ hmem
  · rw [fieldParamList_explode]
    exact hintValue_ne_null _
  · rw [fieldParamList_description]
    exact hintValue_ne_null _
  · rw [fieldParamList_style]
    exact hintValue_ne_null _

/-- A field converter that stores an explicit null description, to
exercise the `is not None` guard. -/
def convNullW : MField → List (String × JValue) :=
  fun _ => [(sw.type_, .jstr "string"), (sw.description, .jnull)]

theorem claim_c8_witness :
    fieldToParameter convW sw.query "verbose" ⟨false⟩ =
      .jobj (fieldParamList convW sw.query "verbose" ⟨false⟩) ∧
    lookupA (fieldParamList convW sw.query "verbose" ⟨false⟩) sw.required =
      some (.jbool false) ∧
    lookupA (fieldParamList convW sw.query "verbose" ⟨false⟩) sw.explode =
      some (.jbool true) ∧
    lookupA (fieldParamList convNullW sw.query "flagged" ⟨true⟩)
      sw.description = none ∧
    lookupA (fieldSDict convW ⟨false⟩) sw.explode = none :=
  ⟨(claim_c8_thm convW sw.query "verbose" ⟨false⟩ (by decide)).1,
   (claim_c8_thm convW sw.query "verbose" ⟨false⟩ (by decide)).2.2.2.2.1,
   ((claim_c8_thm convW sw.query "verbose" ⟨false⟩
      (by decide)).2.2.2.2.2.2.1).trans rfl,
   ((claim_c8_thm convNullW sw.query "flagged" ⟨true⟩
      (by decide)).2.2.2.2.2.2.2.1).trans rfl,
   (claim_c8_thm convW sw.query "verbose" ⟨false⟩
      (by decide)).2.2.2.2.2.2.2.2.2.2.2.2.1⟩

/-- Claim C9: an endpoint declaring a `request_body_schema` emits a
request body marked required with exactly one media-type entry keyed
"application/json" whose schema is a reference into the
components/schemas section; an endpoint without one emits no request-body
key at all. -/
theorem claim_c9_thm (g : Generator) (dhs : Option MSchema)
    (ds : Option (List JValue)) (d : PathDefinition) :
    (∀ s, d.request_body_schema = some s →
      lookupA (buildOperation g dhs ds d) sw.request_body =
        some (.jobj [(sw.required, .jbool true),
          (sw.content, .jobj [("application/json",
            .jobj [(sw.schema, getRefSchema refBase s)])])])) ∧
    (d.request_body_schema = none →
      lookupA (buildOperation g dhs ds d) sw.request_body = none) := by
  constructor
  · intro s hs
    rw [buildOperation_requestBody]
    unfold opBodyPart
    rw [hs]
    rfl
  · intro h
    rw [buildOperation_requestBody]
    unfold opBodyPart
    rw [h]
    rfl

theorem claim_c9_witness :
    lookupA (buildOperation gW none none dW) sw.request_body =
      some (.jobj [(sw.required, .jbool true),
        (sw.content, .jobj [("application/json",
          .jobj [(sw.schema, getRefSchema refBase widgetSchemaW)])])]) ∧
    lookupA (buildOperation gW none none dNoBodyW) sw.request_body = none :=
  ⟨(claim_c9_thm gW none none dW).1 widgetSchemaW rfl,
   (claim_c9_thm gW none none dNoBodyW).2 rfl⟩

/-- Claim C6: a hidden endpoint is excluded from the paths section when
`include_hidden` is false — removing it from the registry leaves the
output unchanged — and when `include_hidden` is true it appears exactly
as the same endpoint would with its hidden flag cleared, its operation
being present in the result under its spec path and lower-cased method. -/
theorem claim_c6_thm (g : Generator) (dhs : Option MSchema)
    (ds : Option (List JValue)) (p : RawPath)
    (m1 m2 : List (String × PathDefinition)) (meth : String)
    (d : PathDefinition)
    (before after : List (RawPath × List (String × PathDefinition))) :
    (g.include_hidden = false → d.hidden = true →
      getPaths g (before ++ (p, m1 ++ (meth, d) :: m2) :: after) dhs ds =
        getPaths g (before ++ (p, m1 ++ m2) :: after) dhs ds) ∧
    (g.include_hidden = true →
      getPaths g (before ++ (p, m1 ++ (meth, setHidden d false) :: m2) :: after)
          dhs ds =
        getPaths g (before ++ (p, m1 ++ (meth, d) :: m2) :: after) dhs ds) ∧
    (g.include_hidden = true →
      ∀ res,
        getPaths g (before ++ (p, m1 ++ (meth, d) :: m2) :: after) dhs ds =
          .ok res →
        ∃ pd, lookupA res (formatPathForSwagger p).1 = some pd ∧
          (lookupA pd meth.toLower).isSome = true) := by
  refine ⟨?_, ?_, ?_⟩
  · intro hg hd
    exact getPathsAux_remove_hidden g dhs ds p m1 m2 meth d hg hd before after []
  · intro hg
    exact getPathsAux_setHidden g dhs ds p m1 m2 meth d false hg before after []
  · intro hg res hok
    exact getPathsAux_presence g dhs ds hg p (m1 ++ (meth, d) :: m2) meth d
      (by simp) (before ++ (p, m1 ++ (meth, d) :: m2) :: after) [] res hok
      (by simp)

/-- The paths section generated for the hidden endpoint with
`include_hidden = true`. -/
def resW : List (String × List (String × JValue)) :=
  match getPaths gWT [(pW, [("GET", dHW)])] none none with
  | .ok r => r
  | .error _ => []

theorem claim_c6_witness :
    (getPaths gW [(pW, [("GET", dHW)])] none none =
      getPaths gW [(pW, ([] : List (String × PathDefinition)))] none none) ∧
    (getPaths gWT [(pW, [("GET", setHidden dHW false)])] none none =
      getPaths gWT [(pW, [("GET", dHW)])] none none) ∧
    (∃ pd, lookupA resW (formatPathForSwagger pW).1 = some pd ∧
      (lookupA pd ("GET".toLower)).isSome = true) :=
  ⟨(claim_c6_thm gW none none pW [] [] "GET" dHW [] []).1 rfl rfl,
   (claim_c6_thm gWT none none pW [] [] "GET" dHW [] []).2.1 rfl,
   (claim_c6_thm gWT none none pW [] [] "GET" dHW [] []).2.2 rfl resW rfl⟩

/-- Claim C10: when `include_hidden` is false and every method on a
framework path is hidden, the path is skipped before the converter-tag
lookup and the duplicate-path parameter verification: the paths section
equals the one generated without that path entirely, so an unrecognized
converter tag or a conflicting parameter type on such a path cannot fail
generation and the path is simply absent. -/
theorem claim_c10_thm (g : Generator) (dhs : Option MSchema)
    (ds : Option (List JValue)) (p : RawPath)
    (ms : List (String × PathDefinition))
    (before after : List (RawPath × List (String × PathDefinition)))
    (hg : g.include_hidden = false)
    (hall : ms.all (fun md => md.2.hidden) = true) :
    getPaths g (before ++ (p, ms) :: after) dhs ds =
      getPaths g (before ++ after) dhs ds :=
  getPathsAux_skip_insert g dhs ds p ms hg hall before after []

/-- A path template with an unrecognized converter tag. -/
def pBadW : RawPath := [.lit "bad", .param "x" "unknown"]

theorem claim_c10_witness :
    getPaths gW [(pW, [("GET", dW)]), (pBadW, [("GET", dHW)])] none none =
      getPaths gW [(pW, [("GET", dW)])] none none :=
  claim_c10_thm gW none none pBadW [("GET", dHW)] [(pW, [("GET", dW)])] []
    rfl rfl

/-- A registry whose only path uses an unrecognized converter tag on a
visible endpoint. -/
def rBadW : HandlerRegistry :=
  { paths := [(pBadW, [("GET", dW)])], default_headers_schema := none,
    default_authenticators := [] }

/-- Claim C7: a typed placeholder in a visible path template emits a path
parameter that is required, located in the path, serialized with the
fixed style "simple", and typed through the fixed converter-tag lookup
table; a tag not in the table makes the parameter constructor raise
instead of emitting a parameter, and generation of any registry holding
such a tag on a visible path returns no document. -/
theorem claim_c7_thm (arg : PathArg) :
    (∀ ty, lookupA flaskConvertersToSwaggerTypes arg.type = some ty →
      pathArgToParameter arg = .ok (.jobj [(sw.name, .jstr arg.name),
        (sw.required, .jbool true), (sw.in_, .jstr sw.path),
        (sw.style, .jstr sw.simple),
        (sw.schema, .jobj [(sw.type_, .jstr ty)])])) ∧
    (lookupA flaskConvertersToSwaggerTypes arg.type = none →
      pathArgToParameter arg = .error (.unknownConverter arg.type)) ∧
    (∀ (g : Generator) (r : HandlerRegistry) (host : Option String)
       (sk : Bool) (p : RawPath) (ms : List (String × PathDefinition)),
      (p, ms) ∈ r.paths →
      (!g.include_hidden && ms.all (fun md => md.2.hidden)) = false →
      arg ∈ (formatPathForSwagger p).2 →
      lookupA flaskConvertersToSwaggerTypes arg.type = none →
      ∀ doc, generate g r host sk ≠ .ok doc) := by
  refine ⟨?_, ?_, ?_⟩
  · intro ty h
    unfold pathArgToParameter
    rw [h]
    rfl
  · intro h
    unfold pathArgToParameter
    rw [h]
    rfl
  · intro g r host sk p ms hmem hvis hargmem hbad doc hgen
    cases hc : getComponents g r with
    | error e =>
      unfold generate at hgen
      rw [hc] at hgen
      cases hgen
    | ok comps =>
      rw [generate_components_ok g r host sk comps hc] at hgen
      obtain ⟨e, he⟩ := getPathsAux_error_of_bad_arg g
        r.default_headers_schema
        (some (r.default_authenticators.flatMap
          (fun a => a.securityRequirements)))
        p ms arg hvis hargmem hbad r.paths [] hmem
      unfold getPaths at hgen
      rw [he] at hgen
      cases hgen

theorem claim_c7_witness :
    pathArgToParameter ⟨"id", "int"⟩ = .ok (.jobj [(sw.name, .jstr "id"),
      (sw.required, .jbool true), (sw.in_, .jstr sw.path),
      (sw.style, .jstr sw.simple),
      (sw.schema, .jobj [(sw.type_, .jstr sw.integer)])]) ∧
    pathArgToParameter ⟨"x", "unknown"⟩ =
      .error (.unknownConverter "unknown") ∧
    generate gW rBadW none true ≠ .ok JValue.jnull :=
  ⟨(claim_c7_thm ⟨"id", "int"⟩).1 sw.integer rfl,
   (claim_c7_thm ⟨"x", "unknown"⟩).2.1 rfl,
   (claim_c7_thm ⟨"x", "unknown"⟩).2.2 gW rBadW none true pBadW
     [("GET", dW)] (List.mem_cons_self _ _) rfl (by decide) rfl
     JValue.jnull⟩

/-- Two visible path templates with the same spec path whose parameter
lists declare different types for a same-named parameter make the paths
loop fail with a parameter mismatch. -/
theorem getPaths_conflict (g : Generator) (dhs : Option MSchema)
    (ds : Option (List JValue)) (p1 p2 : RawPath)
    (ms1 ms2 : List (String × PathDefinition)) (arg1 arg2 : PathArg)
    (ty1 ty2 : String)
    (hsp : (formatPathForSwagger p2).1 = (formatPathForSwagger p1).1)
    (hvis1 : (!g.include_hidden && ms1.all (fun md => md.2.hidden)) = false)
    (hvis2 : (!g.include_hidden && ms2.all (fun md => md.2.hidden)) = false)
    (hm1 : ∀ md ∈ ms1, md.1.toLower ≠ sw.parameters)
    (harg1 : arg1 ∈ (formatPathForSwagger p1).2)
    (harg2 : arg2 ∈ (formatPathForSwagger p2).2)
    (hname : arg1.name = arg2.name)
    (hty1 : lookupA flaskConvertersToSwaggerTypes arg1.type = some ty1)
    (hty2 : lookupA flaskConvertersToSwaggerTypes arg2.type = some ty2)
    (htyne : ty1 ≠ ty2)
    (hall1 : ∀ a ∈ (formatPathForSwagger p1).2,
      (lookupA flaskConvertersToSwaggerTypes a.type).isSome = true)
    (hall2 : ∀ a ∈ (formatPathForSwagger p2).2,
      (lookupA flaskConvertersToSwaggerTypes a.type).isSome = true) :
    getPaths g [(p1, ms1), (p2, ms2)] dhs ds =
      .error (.parameterMismatch (formatPathForSwagger p2).1) := by
  obtain ⟨prms1, hprms1⟩ : ∃ prms,
      (formatPathForSwagger p1).2.mapM pathArgToParameter = .ok prms := by
    apply mapM_ok_of_all
    intro a ha
    cases hla : lookupA flaskConvertersToSwaggerTypes a.type with
    | none =>
      exfalso
      have := hall1 a ha
      rw [hla] at this
      cases this
    | some t =>
      refine ⟨pathParamObj a t, ?_⟩
      unfold pathArgToParameter
      rw [hla]
      rfl
  obtain ⟨prms2, hprms2⟩ : ∃ prms,
      (formatPathForSwagger p2).2.mapM pathArgToParameter = .ok prms := by
    apply mapM_ok_of_all
    intro a ha
    cases hla : lookupA flaskConvertersToSwaggerTypes a.type with
    | none =>
      exfalso
      have := hall2 a ha
      rw [hla] at this
      cases this
    | some t =>
      refine ⟨pathParamObj a t, ?_⟩
      unfold pathArgToParameter
      rw [hla]
      rfl
  have hne1 : ((formatPathForSwagger p1).2).isEmpty = false := by
    cases hargs : (formatPathForSwagger p1).2 with
    | nil => rw [hargs] at harg1; cases harg1
    | cons a rest => rfl
  have hne2 : ((formatPathForSwagger p2).2).isEmpty = false := by
    cases hargs : (formatPathForSwagger p2).2 with
    | nil => rw [hargs] at harg2; cases harg2
    | cons a rest => rfl
  have hpp1 : pathArgToParameter arg1 = .ok (pathParamObj arg1 ty1) := by
    unfold pathArgToParameter
    rw [hty1]
    rfl
  have hpp2 : pathArgToParameter arg2 = .ok (pathParamObj arg2 ty2) := by
    unfold pathArgToParameter
    rw [hty2]
    rfl
  have hin1 : pathParamObj arg1 ty1 ∈ prms1 :=
    mapM_ok_mem pathArgToParameter (formatPathForSwagger p1).2 prms1 hprms1
      arg1 harg1 _ hpp1
  have hin2 : pathParamObj arg2 ty2 ∈ prms2 :=
    mapM_ok_mem pathArgToParameter (formatPathForSwagger p2).2 prms2 hprms2
      arg2 harg2 _ hpp2
  have hconf : parametersConflict prms1 prms2 = true := by
    apply parametersConflict_of_mem prms1 prms2 _ _ hin1 hin2
    · rw [paramName_pathParamObj, paramName_pathParamObj, hname]
    · rw [paramTypeName_pathParamObj, paramTypeName_pathParamObj]
      intro hcon
      exact htyne (Option.some.inj hcon)
  have hbp1 : buildPathParams [] (formatPathForSwagger p1).1
      (formatPathForSwagger p1).2 = .ok [(sw.parameters, .jarr prms1)] := by
    unfold buildPathParams
    rw [if_neg (by rw [hne1]; exact Bool.false_ne_true)]
    rw [hprms1]
    rfl
  have hstep1 : processPath g dhs ds [] p1 ms1 =
      .ok (insertAssoc [] (formatPathForSwagger p1).1
        (methodsFold g dhs ds ms1 [(sw.parameters, .jarr prms1)])) := by
    unfold processPath
    rw [if_neg (by rw [hvis1]; exact Bool.false_ne_true)]
    rw [show ((lookupA ([] : List (String × List (String × JValue)))
      (formatPathForSwagger p1).1).getD []) = [] from rfl]
    rw [hbp1]
    rfl
  have hlook : lookupA (methodsFold g dhs ds ms1 [(sw.parameters, .jarr prms1)])
      sw.parameters = some (.jarr prms1) := by
    rw [methodsFold_lookup_skip g dhs ds sw.parameters ms1 _ hm1]
    rfl
  have hver : verifyParametersAreTheSame (.jarr prms1) (.jarr prms2)
      (formatPathForSwagger p2).1 =
      .error (.parameterMismatch (formatPathForSwagger p2).1) := by
    unfold verifyParametersAreTheSame
    rw [if_pos]
    · rfl
    · exact hconf
  have hbp2 : buildPathParams
      (methodsFold g dhs ds ms1 [(sw.parameters, .jarr prms1)])
      (formatPathForSwagger p2).1 (formatPathForSwagger p2).2 =
      .error (.parameterMismatch (formatPathForSwagger p2).1) := by
    unfold buildPathParams
    rw [if_neg (by rw [hne2]; exact Bool.false_ne_true)]
    simp only [hprms2, hlook, hver]
  have hpd0 : ((lookupA [((formatPathForSwagger p1).1,
      methodsFold g dhs ds ms1 [(sw.parameters, .jarr prms1)])]
      (formatPathForSwagger p2).1).getD []) =
      methodsFold g dhs ds ms1 [(sw.parameters, .jarr prms1)] := by
    rw [hsp, lookupA_cons, if_pos rfl]
    rfl
  have hstep2 : processPath g dhs ds
      [((formatPathForSwagger p1).1,
        methodsFold g dhs ds ms1 [(sw.parameters, .jarr prms1)])] p2 ms2 =
      .error (.parameterMismatch (formatPathForSwagger p2).1) := by
    unfold processPath
    rw [if_neg (by rw [hvis2]; exact Bool.false_ne_true)]
    rw [hpd0, hbp2]
  unfold getPaths
  rw [getPathsAux_cons, hstep1]
  show getPathsAux g dhs ds
    [((formatPathForSwagger p1).1,
      methodsFold g dhs ds ms1 [(sw.parameters, .jarr prms1)])] [(p2, ms2)] =
    .error (.parameterMismatch (formatPathForSwagger p2).1)
  rw [getPathsAux_cons, hstep2]

theorem mapM_ok_exists {α β : Type} (f : α → Except GenError β) :
    ∀ (l : List α) (ys : List β), l.mapM f = .ok ys → ∀ a ∈ l,
      ∃ b, f a = .ok b ∧ b ∈ ys := by
  intro l
  induction l with
  | nil => intro ys _ a ha; cases ha
  | cons x rest ih =>
    intro ys h a ha
    rw [List.mapM_cons] at h
    cases hfx : f x with
    | error e =>
      rw [hfx] at h
      cases h
    | ok b0 =>
      rw [hfx] at h
      replace h : (rest.mapM f >>= fun bs => pure (b0 :: bs)) = Except.ok ys := h
      cases hrest : rest.mapM f with
      | error e => rw [hrest] at h; cases h
      | ok ys0 =>
        rw [hrest] at h
        have hys : b0 :: ys0 = ys := Except.ok.inj h
        rcases List.mem_cons.mp ha with hax | hax
        · subst hax
          exact ⟨b0, hfx, by rw [← hys]; exact List.mem_cons_self b0 ys0⟩
        · obtain ⟨b, hb, hbmem⟩ := ih ys0 hrest a hax
          exact ⟨b, hb, by rw [← hys]; exact List.mem_cons_of_mem b0 hbmem⟩

theorem pathArgToParameter_ok_inv (arg : PathArg) (b : JValue)
    (h : pathArgToParameter arg = .ok b) :
    ∃ ty, lookupA flaskConvertersToSwaggerTypes arg.type = some ty ∧
      b = pathParamObj arg ty := by
  unfold pathArgToParameter at h
  cases hl : lookupA flaskConvertersToSwaggerTypes arg.type with
  | none =>
    rw [hl] at h
    cases h
  | some ty =>
    rw [hl] at h
    exact ⟨ty, rfl, (Except.ok.inj h).symm⟩

theorem parametersConflict_eq_type (prms1 prms2 : List JValue)
    (q1 q2 : JValue) (hc : parametersConflict prms1 prms2 = false)
    (h1 : q1 ∈ prms1) (h2 : q2 ∈ prms2)
    (hn : paramName q1 = paramName q2) :
    paramTypeName q1 = paramTypeName q2 := by
  by_contra hne
  rw [parametersConflict_of_mem prms1 prms2 q1 q2 h1 h2 hn hne] at hc
  cases hc

/-- Inversion of a successful path-parameter construction (source lines
181-206): either the template has no placeholders and the path definition
is untouched, or every placeholder converted, the parameters entry is
overwritten with the new list, and a pre-existing entry passed the
duplicate-path verification against it. -/
theorem buildPathParams_ok_inv (pd0 : List (String × JValue)) (sp : String)
    (args : List PathArg) (pd1 : List (String × JValue))
    (h : buildPathParams pd0 sp args = .ok pd1) :
    (args.isEmpty = true ∧ pd1 = pd0) ∨
    (args.isEmpty = false ∧ ∃ prms, args.mapM pathArgToParameter = .ok prms ∧
      pd1 = insertAssoc pd0 sw.parameters (.jarr prms) ∧
      ∀ existing, lookupA pd0 sw.parameters = some existing →
        parametersConflictJ existing (.jarr prms) = false) := by
  unfold buildPathParams at h
  by_cases he : args.isEmpty = true
  · rw [if_pos he] at h
    exact Or.inl ⟨he, (Except.ok.inj h).symm⟩
  · rw [if_neg he] at h
    have hef : args.isEmpty = false := by
      rw [Bool.not_eq_true] at he
      exact he
    cases hmap : args.mapM pathArgToParameter with
    | error e =>
      rw [hmap] at h
      cases h
    | ok prms =>
      rw [hmap] at h
      replace h : (match lookupA pd0 sw.parameters with
          | some existing =>
              match verifyParametersAreTheSame existing (.jarr prms) sp with
              | .error e => Except.error e
              | .ok _ => pure (insertAssoc pd0 sw.parameters (.jarr prms))
          | none => pure (insertAssoc pd0 sw.parameters (.jarr prms))) =
          Except.ok pd1 := h
      cases hl : lookupA pd0 sw.parameters with
      | none =>
        rw [hl] at h
        refine Or.inr ⟨hef, prms, rfl, (Except.ok.inj h).symm, ?_⟩
        intro ex hex
        cases hex
      | some existing =>
        rw [hl] at h
        replace h : (match verifyParametersAreTheSame existing (.jarr prms) sp with
            | .error e => Except.error e
            | .ok _ => pure (insertAssoc pd0 sw.parameters (.jarr prms))) =
            Except.ok pd1 := h
        cases hv : verifyParametersAreTheSame existing (.jarr prms) sp with
        | error e =>
          rw [hv] at h
          cases h
        | ok u =>
          rw [hv] at h
          refine Or.inr ⟨hef, prms, rfl, (Except.ok.inj h).symm, ?_⟩
          intro ex hex
          have hxe : existing = ex := Option.some.inj hex
          rw [← hxe]
          cases hcj : parametersConflictJ existing (.jarr prms) with
          | false => rfl
          | true =>
            exfalso
            unfold verifyParametersAreTheSame at hv
            rw [if_pos hcj] at hv
            cases hv

/-- Inversion of one step of the paths loop: either the entry is skipped
as fully hidden, or its path parameters built successfully and the
accumulator gains the methods fold under the spec path. -/
theorem processPath_ok_cases (g : Generator) (dhs : Option MSchema)
    (ds : Option (List JValue)) (acc : List (String × List (String × JValue)))
    (p : RawPath) (ms : List (String × PathDefinition))
    (acc1 : List (String × List (String × JValue)))
    (h : processPath g dhs ds acc p ms = .ok acc1) :
    ((!g.include_hidden && ms.all (fun md => md.2.hidden)) = true ∧
      acc1 = acc) ∨
    ((!g.include_hidden && ms.all (fun md => md.2.hidden)) = false ∧
      ∃ pd1, buildPathParams ((lookupA acc (formatPathForSwagger p).1).getD [])
          (formatPathForSwagger p).1 (formatPathForSwagger p).2 = .ok pd1 ∧
        acc1 = insertAssoc acc (formatPathForSwagger p).1
          (methodsFold g dhs ds ms pd1)) := by
  unfold processPath at h
  by_cases hskip : (!g.include_hidden && ms.all (fun md => md.2.hidden)) = true
  · rw [if_pos hskip] at h
    exact Or.inl ⟨hskip, (Except.ok.inj h).symm⟩
  · rw [if_neg hskip] at h
    have hsf : (!g.include_hidden && ms.all (fun md => md.2.hidden)) = false := by
      rw [Bool.not_eq_true] at hskip
      exact hskip
    cases hbp : buildPathParams ((lookupA acc (formatPathForSwagger p).1).getD [])
        (formatPathForSwagger p).1 (formatPathForSwagger p).2 with
    | error e => rw [hbp] at h; cases h
    | ok pd1 =>
      rw [hbp] at h
      exact Or.inr ⟨hsf, pd1, rfl, (Except.ok.inj h).symm⟩

/-- The invariant carried through the paths loop once a conflicting
template has been processed: the accumulator's entry at spec path `sp`
already stores a parameter list containing a parameter named `nm` whose
declared type is `ty`. -/
def ConflictInv (sp nm ty : String)
    (acc : List (String × List (String × JValue))) : Prop :=
  ∃ pd prms q, lookupA acc sp = some pd ∧
    lookupA pd sw.parameters = some (.jarr prms) ∧
    q ∈ prms ∧ paramName q = some nm ∧ paramTypeName q = some ty

/-- Processing a visible template that declares `nm` with tag `t` of
swagger type `ty` establishes the conflict invariant at its spec path. -/
theorem conflictInv_est (g : Generator) (dhs : Option MSchema)
    (ds : Option (List JValue)) (acc acc1 : List (String × List (String × JValue)))
    (p : RawPath) (ms : List (String × PathDefinition)) (nm t ty : String)
    (h : processPath g dhs ds acc p ms = .ok acc1)
    (harg : (⟨nm, t⟩ : PathArg) ∈ (formatPathForSwagger p).2)
    (hty : lookupA flaskConvertersToSwaggerTypes t = some ty)
    (hvis : (!g.include_hidden && ms.all (fun md => md.2.hidden)) = false)
    (hm : ∀ md ∈ ms, md.1.toLower ≠ sw.parameters) :
    ConflictInv (formatPathForSwagger p).1 nm ty acc1 := by
  have hne : ((formatPathForSwagger p).2).isEmpty = false := by
    cases hargs : (formatPathForSwagger p).2 with
    | nil => rw [hargs] at harg; cases harg
    | cons a rest => rfl
  rcases processPath_ok_cases g dhs ds acc p ms acc1 h with
    ⟨hskip, _⟩ | ⟨_, pd1, hbp, hacc1⟩
  · rw [hvis] at hskip
    cases hskip
  · rcases buildPathParams_ok_inv _ _ _ _ hbp with
      ⟨hempty, _⟩ | ⟨_, prms, hmap, hpd1, _⟩
    · rw [hne] at hempty
      cases hempty
    · have hppo : pathArgToParameter ⟨nm, t⟩ = .ok (pathParamObj ⟨nm, t⟩ ty) := by
        unfold pathArgToParameter
        rw [hty]
        rfl
      have hqmem : pathParamObj ⟨nm, t⟩ ty ∈ prms :=
        mapM_ok_mem pathArgToParameter _ prms hmap _ harg _ hppo
      refine ⟨methodsFold g dhs ds ms pd1, prms, pathParamObj ⟨nm, t⟩ ty,
        ?_, ?_, hqmem, paramName_pathParamObj _ _, paramTypeName_pathParamObj _ _⟩
      · rw [hacc1, lookupA_insertAssoc_self]
      · rw [methodsFold_lookup_skip g dhs ds sw.parameters ms pd1 hm, hpd1,
          lookupA_insertAssoc_self]

/-- The conflict invariant survives processing any further entry, as long
as no method of a same-spec-path entry lower-cases to the reserved key
and every same-spec-path template declares the parameter's name (or has
no placeholders): the duplicate-path verification only lets through a
parameter list that agrees on the type. -/
theorem conflictInv_pres (g : Generator) (dhs : Option MSchema)
    (ds : Option (List JValue)) (acc acc1 : List (String × List (String × JValue)))
    (p : RawPath) (ms : List (String × PathDefinition)) (sp nm ty : String)
    (h : processPath g dhs ds acc p ms = .ok acc1)
    (hinv : ConflictInv sp nm ty acc)
    (hmp : (formatPathForSwagger p).1 = sp →
      ∀ md ∈ ms, md.1.toLower ≠ sw.parameters)
    (hnamep : (formatPathForSwagger p).1 = sp →
      (formatPathForSwagger p).2 = [] ∨
        ∃ t2, (⟨nm, t2⟩ : PathArg) ∈ (formatPathForSwagger p).2) :
    ConflictInv sp nm ty acc1 := by
  obtain ⟨pd, prms, q, hlpd, hlpar, hqmem, hqname, hqty⟩ := hinv
  rcases processPath_ok_cases g dhs ds acc p ms acc1 h with
    ⟨_, hacc⟩ | ⟨_, pd1, hbp, hacc1⟩
  · rw [hacc]
    exact ⟨pd, prms, q, hlpd, hlpar, hqmem, hqname, hqty⟩
  · by_cases hsp : (formatPathForSwagger p).1 = sp
    · have hm2 := hmp hsp
      have hpd0 : (lookupA acc (formatPathForSwagger p).1).getD [] = pd := by
        rw [hsp, hlpd]
        rfl
      rcases buildPathParams_ok_inv _ _ _ _ hbp with
        ⟨_, hpd1⟩ | ⟨hne, prms2, hmap, hpd1, hverok⟩
      · rw [hpd0] at hpd1
        refine ⟨methodsFold g dhs ds ms pd1, prms, q, ?_, ?_, hqmem, hqname, hqty⟩
        · rw [hacc1, hsp, lookupA_insertAssoc_self]
        · rw [methodsFold_lookup_skip g dhs ds sw.parameters ms pd1 hm2, hpd1]
          exact hlpar
      · rcases hnamep hsp with hargsnil | ⟨t2, ht2⟩
        · rw [hargsnil] at hne
          cases hne
        · obtain ⟨b, hb, hbmem⟩ := mapM_ok_exists pathArgToParameter _ prms2 hmap _ ht2
          obtain ⟨ty2, hty2, hbeq⟩ := pathArgToParameter_ok_inv _ _ hb
          have hlex : lookupA ((lookupA acc (formatPathForSwagger p).1).getD [])
              sw.parameters = some (.jarr prms) := by
            rw [hpd0]
            exact hlpar
          have hcf : parametersConflict prms prms2 = false :=
            hverok (.jarr prms) hlex
          have hbname : paramName b = some nm := by
            rw [hbeq]
            exact paramName_pathParamObj _ _
          have htyeq : paramTypeName q = paramTypeName b :=
            parametersConflict_eq_type prms prms2 q b hcf hqmem hbmem
              (by rw [hqname, hbname])
          refine ⟨methodsFold g dhs ds ms pd1, prms2, b, ?_, ?_, hbmem, hbname, ?_⟩
          · rw [hacc1, hsp, lookupA_insertAssoc_self]
          · rw [methodsFold_lookup_skip g dhs ds sw.parameters ms pd1 hm2, hpd1,
              lookupA_insertAssoc_self]
          · rw [← htyeq]
            exact hqty
    · refine ⟨pd, prms, q, ?_, hlpar, hqmem, hqname, hqty⟩
      rw [hacc1, lookupA_insertAssoc_ne _ _ _ _ (fun e => hsp e.symm)]
      exact hlpd

/-- Once the invariant holds, a visible template with the same spec path
declaring a different type for the same parameter name cannot be
processed successfully: the duplicate-path verification fails. -/
theorem conflictInv_kill (g : Generator) (dhs : Option MSchema)
    (ds : Option (List JValue)) (acc : List (String × List (String × JValue)))
    (p : RawPath) (ms : List (String × PathDefinition)) (sp nm ty t2 ty2 : String)
    (hinv : ConflictInv sp nm ty acc)
    (hsp : (formatPathForSwagger p).1 = sp)
    (harg : (⟨nm, t2⟩ : PathArg) ∈ (formatPathForSwagger p).2)
    (hty2 : lookupA flaskConvertersToSwaggerTypes t2 = some ty2)
    (htyne : ty2 ≠ ty)
    (hvis : (!g.include_hidden && ms.all (fun md => md.2.hidden)) = false) :
    ∀ acc1, processPath g dhs ds acc p ms ≠ .ok acc1 := by
  intro acc1 h
  have hne : ((formatPathForSwagger p).2).isEmpty = false := by
    cases hargs : (formatPathForSwagger p).2 with
    | nil => rw [hargs] at harg; cases harg
    | cons a rest => rfl
  obtain ⟨pd, prms, q, hlpd, hlpar, hqmem, hqname, hqty⟩ := hinv
  rcases processPath_ok_cases g dhs ds acc p ms acc1 h with
    ⟨hskip, _⟩ | ⟨_, pd1, hbp, _⟩
  · rw [hvis] at hskip
    cases hskip
  · rcases buildPathParams_ok_inv _ _ _ _ hbp with
      ⟨hempty, _⟩ | ⟨_, prms2, hmap, _, hverok⟩
    · rw [hne] at hempty
      cases hempty
    · have hppo : pathArgToParameter ⟨nm, t2⟩ = .ok (pathParamObj ⟨nm, t2⟩ ty2) := by
        unfold pathArgToParameter
        rw [hty2]
        rfl
      have hbmem : pathParamObj ⟨nm, t2⟩ ty2 ∈ prms2 :=
        mapM_ok_mem pathArgToParameter _ prms2 hmap _ harg _ hppo
      have hpd0 : (lookupA acc (formatPathForSwagger p).1).getD [] = pd := by
        rw [hsp, hlpd]
        rfl
      have hlex : lookupA ((lookupA acc (formatPathForSwagger p).1).getD [])
          sw.parameters = some (.jarr prms) := by
        rw [hpd0]
        exact hlpar
      have hcf : parametersConflict prms prms2 = false := hverok (.jarr prms) hlex
      have hct : parametersConflict prms prms2 = true :=
        parametersConflict_of_mem prms prms2 q _ hqmem hbmem
          (by rw [hqname, paramName_pathParamObj])
          (by
            rw [hqty, paramTypeName_pathParamObj]
            intro hcon
            exact htyne (Option.some.inj hcon).symm)
      rw [hct] at hcf
      cases hcf

/-- Once the invariant holds and a visible conflicting template is still
ahead in the loop, the loop cannot finish successfully. -/
theorem getPathsAux_inv_err (g : Generator) (dhs : Option MSchema)
    (ds : Option (List JValue)) (sp nm ty t2 ty2 : String) (pother : RawPath)
    (msother : List (String × PathDefinition))
    (hspo : (formatPathForSwagger pother).1 = sp)
    (hargo : (⟨nm, t2⟩ : PathArg) ∈ (formatPathForSwagger pother).2)
    (hty2 : lookupA flaskConvertersToSwaggerTypes t2 = some ty2)
    (htyne : ty2 ≠ ty)
    (hviso : (!g.include_hidden && msother.all (fun md => md.2.hidden)) = false) :
    ∀ (paths : List (RawPath × List (String × PathDefinition)))
      (acc : List (String × List (String × JValue))),
      ConflictInv sp nm ty acc →
      (pother, msother) ∈ paths →
      (∀ pm ∈ paths, (formatPathForSwagger pm.1).1 = sp →
        ∀ md ∈ pm.2, md.1.toLower ≠ sw.parameters) →
      (∀ pm ∈ paths, (formatPathForSwagger pm.1).1 = sp →
        (formatPathForSwagger pm.1).2 = [] ∨
          ∃ t3, (⟨nm, t3⟩ : PathArg) ∈ (formatPathForSwagger pm.1).2) →
      ∀ res, getPathsAux g dhs ds acc paths ≠ .ok res := by
  intro paths
  induction paths with
  | nil =>
    intro acc _ hmem _ _ res _
    cases hmem
  | cons pm rest ih =>
    intro acc hinv hmem hm hnames res hok
    obtain ⟨pp, pms⟩ := pm
    rw [getPathsAux_cons] at hok
    cases hp : processPath g dhs ds acc pp pms with
    | error e =>
      rw [hp] at hok
      cases hok
    | ok acc1 =>
      rw [hp] at hok
      replace hok : getPathsAux g dhs ds acc1 rest = .ok res := hok
      by_cases heq : (pother, msother) = (pp, pms)
      · have e1 : pother = pp := congrArg Prod.fst heq
        have e2 : msother = pms := congrArg Prod.snd heq
        subst e1
        subst e2
        exact conflictInv_kill g dhs ds acc pother msother sp nm ty t2 ty2
          hinv hspo hargo hty2 htyne hviso acc1 hp
      · have hinv1 : ConflictInv sp nm ty acc1 :=
          conflictInv_pres g dhs ds acc acc1 pp pms sp nm ty hp hinv
            (fun hsp0 => hm (pp, pms) (List.mem_cons_self _ _) hsp0)
            (fun hsp0 => hnames (pp, pms) (List.mem_cons_self _ _) hsp0)
        have hmem1 : (pother, msother) ∈ rest := by
          rcases List.mem_cons.mp hmem with h | h
          · exact absurd h heq
          · exact h
        exact ih acc1 hinv1 hmem1
          (fun q hq => hm q (List.mem_cons_of_mem _ hq))
          (fun q hq => hnames q (List.mem_cons_of_mem _ hq)) res hok

/-- With two distinct visible conflicting templates both in the path
list, the loop cannot finish successfully, from any accumulator. -/
theorem getPathsAux_both_err (g : Generator) (dhs : Option MSchema)
    (ds : Option (List JValue)) (p1 p2 : RawPath) (nm t1 t2 ty1 ty2 : String)
    (ms1 ms2 : List (String × PathDefinition))
    (harg1 : (⟨nm, t1⟩ : PathArg) ∈ (formatPathForSwagger p1).2)
    (harg2 : (⟨nm, t2⟩ : PathArg) ∈ (formatPathForSwagger p2).2)
    (hsp : (formatPathForSwagger p2).1 = (formatPathForSwagger p1).1)
    (hty1 : lookupA flaskConvertersToSwaggerTypes t1 = some ty1)
    (hty2 : lookupA flaskConvertersToSwaggerTypes t2 = some ty2)
    (htyne : ty1 ≠ ty2)
    (hne12 : p1 ≠ p2)
    (hvis1 : (!g.include_hidden && ms1.all (fun md => md.2.hidden)) = false)
    (hvis2 : (!g.include_hidden && ms2.all (fun md => md.2.hidden)) = false) :
    ∀ (paths : List (RawPath × List (String × PathDefinition)))
      (acc : List (String × List (String × JValue))),
      (p1, ms1) ∈ paths → (p2, ms2) ∈ paths →
      (∀ pm ∈ paths, (formatPathForSwagger pm.1).1 = (formatPathForSwagger p1).1 →
        ∀ md ∈ pm.2, md.1.toLower ≠ sw.parameters) →
      (∀ pm ∈ paths, (formatPathForSwagger pm.1).1 = (formatPathForSwagger p1).1 →
        (formatPathForSwagger pm.1).2 = [] ∨
          ∃ t3, (⟨nm, t3⟩ : PathArg) ∈ (formatPathForSwagger pm.1).2) →
      ∀ res, getPathsAux g dhs ds acc paths ≠ .ok res := by
  intro paths
  induction paths with
  | nil =>
    intro acc hmem1 _ _ _ res _
    cases hmem1
  | cons pm rest ih =>
    intro acc hmem1 hmem2 hm hnames res hok
    obtain ⟨pp, pms⟩ := pm
    rw [getPathsAux_cons] at hok
    cases hp : processPath g dhs ds acc pp pms with
    | error e =>
      rw [hp] at hok
      cases hok
    | ok acc1 =>
      rw [hp] at hok
      replace hok : getPathsAux g dhs ds acc1 rest = .ok res := hok
      by_cases h1 : (p1, ms1) = (pp, pms)
      · have e1 : p1 = pp := congrArg Prod.fst h1
        have e2 : ms1 = pms := congrArg Prod.snd h1
        subst e1
        subst e2
        have hinv1 : ConflictInv (formatPathForSwagger p1).1 nm ty1 acc1 :=
          conflictInv_est g dhs ds acc acc1 p1 ms1 nm t1 ty1 hp harg1 hty1 hvis1
            (fun md hmd => hm (p1, ms1) (List.mem_cons_self _ _) rfl md hmd)
        have hm2r : (p2, ms2) ∈ rest := by
          rcases List.mem_cons.mp hmem2 with h | h
          · exfalso
            exact hne12 (congrArg Prod.fst h).symm
          · exact h
        exact getPathsAux_inv_err g dhs ds (formatPathForSwagger p1).1 nm ty1
          t2 ty2 p2 ms2 hsp harg2 hty2 (fun e => htyne e.symm) hvis2 rest acc1
          hinv1 hm2r
          (fun q hq => hm q (List.mem_cons_of_mem _ hq))
          (fun q hq => hnames q (List.mem_cons_of_mem _ hq)) res hok
      · by_cases h2 : (p2, ms2) = (pp, pms)
        · have e1 : p2 = pp := congrArg Prod.fst h2
          have e2 : ms2 = pms := congrArg Prod.snd h2
          subst e1
          subst e2
          have hinv2 : ConflictInv (formatPathForSwagger p2).1 nm ty2 acc1 :=
            conflictInv_est g dhs ds acc acc1 p2 ms2 nm t2 ty2 hp harg2 hty2 hvis2
              (fun md hmd => hm (p2, ms2) (List.mem_cons_self _ _) hsp md hmd)
          have hm1r : (p1, ms1) ∈ rest := by
            rcases List.mem_cons.mp hmem1 with h | h
            · exact absurd h h1
            · exact h
          exact getPathsAux_inv_err g dhs ds (formatPathForSwagger p2).1 nm ty2
            t1 ty1 p1 ms1 hsp.symm harg1 hty1 htyne hvis1 rest acc1 hinv2 hm1r
            (fun q hq hq2 => hm q (List.mem_cons_of_mem _ hq) (hq2.trans hsp))
            (fun q hq hq2 => hnames q (List.mem_cons_of_mem _ hq) (hq2.trans hsp))
            res hok
        · have hm1r : (p1, ms1) ∈ rest := by
            rcases List.mem_cons.mp hmem1 with h | h
            · exact absurd h h1
            · exact h
          have hm2r : (p2, ms2) ∈ rest := by
            rcases List.mem_cons.mp hmem2 with h | h
            · exact absurd h h2
            · exact h
          exact ih acc1 hm1r hm2r
            (fun q hq => hm q (List.mem_cons_of_mem _ hq))
            (fun q hq => hnames q (List.mem_cons_of_mem _ hq)) res hok

/-- Claim C1 (amended): for every registry in which two distinct
framework path templates format to the same spec path and declare
different types for a path parameter of the same name, with BOTH
occurrences visible (neither template skipped as fully hidden), generate
signals a parameter-mismatch error and returns no document, rather than
silently picking one type.  Part one: for every such registry, generate
returns no document.  Part two: the error signalled for the conflict
itself is the parameter-mismatch failure, shown on the conflicting pair
in isolation, where no other configuration error can pre-empt it.  The
two side conditions of part one state framework well-formedness the
unrestricted string model cannot derive: no HTTP method name of a
same-spec-path entry lower-cases to the reserved key "parameters", and
every template rendering to the conflicted spec path declares the
parameter's name or has no placeholders (in Flask both are automatic,
since method names come from a fixed set and a template's placeholder
names appear verbatim in its rendered spec path).  (The original claim
required only one of the occurrences to be visible; the counterexample
shows that when the conflicting occurrence lies on a fully hidden
template, generation succeeds with the other type.) -/
theorem claim_c1_thm (g : Generator) (p1 p2 : RawPath)
    (nm t1 t2 ty1 ty2 : String)
    (harg1 : (⟨nm, t1⟩ : PathArg) ∈ (formatPathForSwagger p1).2)
    (harg2 : (⟨nm, t2⟩ : PathArg) ∈ (formatPathForSwagger p2).2)
    (hsp : (formatPathForSwagger p2).1 = (formatPathForSwagger p1).1)
    (hty1 : lookupA flaskConvertersToSwaggerTypes t1 = some ty1)
    (hty2 : lookupA flaskConvertersToSwaggerTypes t2 = some ty2)
    (htyne : ty1 ≠ ty2)
    (hne12 : p1 ≠ p2) :
    (∀ (r : HandlerRegistry) (host : Option String) (sk : Bool)
       (ms1 ms2 : List (String × PathDefinition)),
      (p1, ms1) ∈ r.paths → (p2, ms2) ∈ r.paths →
      (!g.include_hidden && ms1.all (fun md => md.2.hidden)) = false →
      (!g.include_hidden && ms2.all (fun md => md.2.hidden)) = false →
      (∀ pm ∈ r.paths, (formatPathForSwagger pm.1).1 = (formatPathForSwagger p1).1 →
        ∀ md ∈ pm.2, md.1.toLower ≠ sw.parameters) →
      (∀ pm ∈ r.paths, (formatPathForSwagger pm.1).1 = (formatPathForSwagger p1).1 →
        (formatPathForSwagger pm.1).2 = [] ∨
          ∃ t3, (⟨nm, t3⟩ : PathArg) ∈ (formatPathForSwagger pm.1).2) →
      ∀ doc, generate g r host sk ≠ .ok doc) ∧
    (∀ (dhs : Option MSchema) (ds : Option (List JValue))
       (ms1 ms2 : List (String × PathDefinition)),
      (!g.include_hidden && ms1.all (fun md => md.2.hidden)) = false →
      (!g.include_hidden && ms2.all (fun md => md.2.hidden)) = false →
      (∀ md ∈ ms1, md.1.toLower ≠ sw.parameters) →
      (∀ a ∈ (formatPathForSwagger p1).2,
        (lookupA flaskConvertersToSwaggerTypes a.type).isSome = true) →
      (∀ a ∈ (formatPathForSwagger p2).2,
        (lookupA flaskConvertersToSwaggerTypes a.type).isSome = true) →
      getPaths g [(p1, ms1), (p2, ms2)] dhs ds =
        .error (.parameterMismatch (formatPathForSwagger p2).1)) := by
  constructor
  · intro r host sk ms1 ms2 hmem1 hmem2 hvis1 hvis2 hm hnames doc hgen
    cases hc : getComponents g r with
    | error e =>
      unfold generate at hgen
      rw [hc] at hgen
      cases hgen
    | ok comps =>
      rw [generate_components_ok g r host sk comps hc] at hgen
      cases hgp : getPaths g r.paths r.default_headers_schema
          (some (r.default_authenticators.flatMap
            (fun a => a.securityRequirements))) with
      | error e =>
        rw [hgp] at hgen
        cases hgen
      | ok paths0 =>
        have hgp2 : getPathsAux g r.default_headers_schema
            (some (r.default_authenticators.flatMap
              (fun a => a.securityRequirements))) [] r.paths = .ok paths0 := hgp
        exact getPathsAux_both_err g r.default_headers_schema
          (some (r.default_authenticators.flatMap
            (fun a => a.securityRequirements)))
          p1 p2 nm t1 t2 ty1 ty2 ms1 ms2 harg1 harg2 hsp hty1 hty2 htyne hne12
          hvis1 hvis2 r.paths [] hmem1 hmem2 hm hnames paths0 hgp2
  · intro dhs ds ms1 ms2 hvis1 hvis2 hm1 hall1 hall2
    exact getPaths_conflict g dhs ds p1 p2 ms1 ms2 ⟨nm, t1⟩ ⟨nm, t2⟩ ty1 ty2
      hsp hvis1 hvis2 hm1 harg1 harg2 rfl hty1 hty2 htyne hall1 hall2

/-- The second template of the conflicting pair: same spec path as `pW`
but with a string-typed `id`. -/
def pC1B : RawPath := [.lit "widgets", .param "id" "string"]

/-- The registry of the counterexample: the int-typed occurrence is
visible, the conflicting string-typed occurrence is fully hidden. -/
def rC1Mixed : HandlerRegistry :=
  { paths := [(pW, [("GET", dW)]), (pC1B, [("POST", dHW)])],
    default_headers_schema := none, default_authenticators := [] }

theorem claim_c1_counterexample :
    (formatPathForSwagger pW).1 = (formatPathForSwagger pC1B).1 ∧
    lookupA flaskConvertersToSwaggerTypes "int" = some sw.integer ∧
    lookupA flaskConvertersToSwaggerTypes "string" = some sw.string ∧
    sw.integer ≠ sw.string ∧
    dW.hidden = false ∧
    dHW.hidden = true ∧
    gW.include_hidden = false ∧
    rC1Mixed.paths = [(pW, [("GET", dW)]), (pC1B, [("POST", dHW)])] ∧
    isOkE (generate gW rC1Mixed none true) = true :=
  ⟨rfl, rfl, rfl, by decide, rfl, rfl, rfl, rfl, rfl⟩

/-- The registry of the witness: both conflicting path templates present,
processed under `include_hidden = true` so neither is skipped. -/
def rConfW : HandlerRegistry :=
  { paths := [(pW, ([] : List (String × PathDefinition))), (pC1B, [])],
    default_headers_schema := none, default_authenticators := [] }

theorem claim_c1_witness :
    generate gWT rConfW none true ≠ .ok JValue.jnull ∧
    getPaths gWT [(pW, ([] : List (String × PathDefinition))), (pC1B, [])]
        none none =
      .error (.parameterMismatch (formatPathForSwagger pC1B).1) :=
  ⟨(claim_c1_thm gWT pW pC1B "id" "int" "string" sw.integer sw.string
      (by decide) (by decide) rfl rfl rfl (by decide) (by decide)).1
      rConfW none true [] []
      (List.mem_cons_self _ _)
      (List.mem_cons_of_mem _ (List.mem_cons_self _ _))
      rfl rfl
      (by
        intro pm hpm _ md hmd
        rcases List.mem_cons.mp hpm with h | h
        · subst h
          exact absurd hmd (List.not_mem_nil md)
        · rcases List.mem_cons.mp h with h2 | h2
          · subst h2
            exact absurd hmd (List.not_mem_nil md)
          · cases h2)
      (by
        intro pm hpm _
        rcases List.mem_cons.mp hpm with h | h
        · subst h
          exact Or.inr ⟨"int", by decide⟩
        · rcases List.mem_cons.mp h with h2 | h2
          · subst h2
            exact Or.inr ⟨"string", by decide⟩
          · cases h2)
      JValue.jnull,
   (claim_c1_thm gWT pW pC1B "id" "int" "string" sw.integer sw.string
      (by decide) (by decide) rfl rfl rfl (by decide) (by decide)).2
      none none [] [] rfl rfl
      (fun md hmd => absurd hmd (List.not_mem_nil md))
      (by
        intro a ha
        rw [show (formatPathForSwagger pW).2 = [(⟨"id", "int"⟩ : PathArg)]
          from rfl, List.mem_singleton] at ha
        subst ha
        rfl)
      (by
        intro a ha
        rw [show (formatPathForSwagger pC1B).2 = [(⟨"id", "string"⟩ : PathArg)]
          from rfl, List.mem_singleton] at ha
        subst ha
        rfl)⟩
